import Mathlib

/-!
Verification of the db-adapter repository core: schema comparison
(`schema/comparator.py`), fix planning and application (`schema/fix.py`),
the backup/restore engine (`backup/backup_restore.py`) and the sync
orchestrator (`schema/sync.py`), shallowly embedded in Lean.

Strings are modelled by Lean `String`; Python `str.replace(old, "")` and
`old in s` are modelled by executable functions on the underlying
character lists.  Database adapters are modelled as explicit records of
response functions over an abstract state, and every adapter call made by
an engine is recorded in a trace so that frame properties ("no writes")
are expressible.  File I/O is factored out: functions that read files
take the parsed content as a parameter, and functions that write files
return the would-be content.
-/

namespace DbAdapter

/-- Substring test: Python `pat in s`, on character lists. -/
def hasSub (pat : List Char) : List Char → Bool
  | [] => pat.isEmpty
  | c :: rest => pat.isPrefixOf (c :: rest) || hasSub pat rest

/-- One fuel-indexed step of Python `s.replace(pat, "")`: scan left to
right, and where `pat` matches drop it (non-overlapping), otherwise keep
the character.  `fuel ≥ s.length` makes the fuel irrelevant. -/
def pyDelF (pat : List Char) : Nat → List Char → List Char
  | 0, s => s
  | _ + 1, [] => []
  | fuel + 1, c :: rest =>
    if pat.isPrefixOf (c :: rest) then pyDelF pat fuel ((c :: rest).drop pat.length)
    else c :: pyDelF pat fuel rest

/-- Python `s.replace(pat, "")` on strings. -/
def pyReplace (s pat : String) : String :=
  ⟨pyDelF pat.data s.data.length s.data⟩

/-- Python `pat in s` on strings. -/
def pyContains (s pat : String) : Bool :=
  hasSub pat.data s.data

theorem pyDelF_of_not_hasSub (pat : List Char) :
    ∀ (s : List Char) (fuel : Nat), s.length ≤ fuel → hasSub pat s = false →
      pyDelF pat fuel s = s := by
  intro s
  induction s with
  | nil => intro fuel _ _; cases fuel <;> rfl
  | cons c rest ih =>
    intro fuel hlen hsub
    cases fuel with
    | zero => simp at hlen
    | succ f =>
      simp only [hasSub, Bool.or_eq_false_iff] at hsub
      have hr : rest.length ≤ f := by simpa using hlen
      simp [pyDelF, hsub.1, ih f hr hsub.2]

theorem pyReplace_of_not_contains (s pat : String) (h : pyContains s pat = false) :
    pyReplace s pat = s := by
  unfold pyContains at h
  unfold pyReplace
  rw [pyDelF_of_not_hasSub pat.data s.data s.data.length (Nat.le_refl _) h]

theorem isPrefixOf_self_append (l s : List Char) : l.isPrefixOf (l ++ s) = true := by
  induction l with
  | nil =>
    cases s with
    | nil => rfl
    | cons c cs => rfl
  | cons c t ih => simp [List.isPrefixOf, ih]

theorem hasSub_of_isPrefixOf (pat s : List Char) (h : pat.isPrefixOf s = true) :
    hasSub pat s = true := by
  cases s with
  | nil =>
    cases pat with
    | nil => rfl
    | cons p pt => simp [List.isPrefixOf] at h
  | cons c rest => simp [hasSub, h]

theorem hasSub_cons_of (pat : List Char) (c : Char) (rest : List Char)
    (h : hasSub pat rest = true) : hasSub pat (c :: rest) = true := by
  simp [hasSub, h]

theorem hasSub_append_left (pat : List Char) :
    ∀ (pre s : List Char), hasSub pat s = true → hasSub pat (pre ++ s) = true := by
  intro pre
  induction pre with
  | nil => intro s h; simpa using h
  | cons c rest ih =>
    intro s h
    rw [List.cons_append]
    exact hasSub_cons_of _ _ _ (ih s h)

/-- No occurrence of `pat` starts strictly inside `pre` when `pre` is
followed by `tl`: every nonempty suffix of `pre`, continued by `tl`,
fails the prefix test. -/
def noMatchStartingIn (pat : List Char) : List Char → List Char → Bool
  | [], _ => true
  | c :: rest, tl => !(pat.isPrefixOf (c :: (rest ++ tl))) && noMatchStartingIn pat rest tl

theorem pyDelF_through (pat : List Char) :
    ∀ (pre s : List Char) (fuel : Nat), pre.length + s.length ≤ fuel →
      noMatchStartingIn pat pre s = true →
      pyDelF pat fuel (pre ++ s) = pre ++ pyDelF pat (fuel - pre.length) s := by
  intro pre
  induction pre with
  | nil => intro s fuel _ _; simp
  | cons c rest ih =>
    intro s fuel hlen hno
    cases fuel with
    | zero => simp only [List.length_cons] at hlen; omega
    | succ f =>
      have hno' : (!(pat.isPrefixOf (c :: (rest ++ s)))
          && noMatchStartingIn pat rest s) = true := hno
      have h1 : pat.isPrefixOf (c :: (rest ++ s)) = false := by
        cases hb : pat.isPrefixOf (c :: (rest ++ s)) with
        | false => rfl
        | true => rw [hb] at hno'; simp at hno'
      have h2 : noMatchStartingIn pat rest s = true := by
        simp only [Bool.and_eq_true] at hno'
        exact hno'.2
      have hlen' : rest.length + s.length ≤ f := by
        simp only [List.length_cons] at hlen; omega
      show pyDelF pat (f + 1) (c :: (rest ++ s))
          = (c :: rest) ++ pyDelF pat (f + 1 - (c :: rest).length) s
      rw [show pyDelF pat (f + 1) (c :: (rest ++ s))
          = if pat.isPrefixOf (c :: (rest ++ s)) then
              pyDelF pat f ((c :: (rest ++ s)).drop pat.length)
            else c :: pyDelF pat f (rest ++ s) from rfl]
      rw [h1]
      simp only [Bool.false_eq_true, if_false]
      rw [ih s f hlen' h2]
      simp only [List.cons_append, List.length_cons, Nat.succ_sub_succ]

theorem pyDelF_removes (pat : List Char) (p : Char) (pt : List Char) (hpat : pat = p :: pt)
    (pre suf : List Char)
    (hpre : noMatchStartingIn pat pre (pat ++ suf) = true)
    (hsuf : hasSub pat suf = false) :
    pyDelF pat (pre ++ pat ++ suf).length (pre ++ pat ++ suf) = pre ++ suf := by
  rw [List.append_assoc]
  rw [pyDelF_through pat pre (pat ++ suf) (pre ++ (pat ++ suf)).length
    (le_of_eq (List.length_append pre (pat ++ suf)).symm) hpre]
  congr 1
  have harith : (pre ++ (pat ++ suf)).length - pre.length = (pat ++ suf).length := by
    rw [List.length_append]; omega
  rw [harith]
  subst hpat
  rw [List.cons_append]
  have hpref : (p :: pt).isPrefixOf (p :: (pt ++ suf)) = true := by
    have h := isPrefixOf_self_append (p :: pt) suf
    rwa [List.cons_append] at h
  rw [show (p :: (pt ++ suf)).length = (pt ++ suf).length + 1 from rfl]
  rw [show pyDelF (p :: pt) ((pt ++ suf).length + 1) (p :: (pt ++ suf))
      = if (p :: pt).isPrefixOf (p :: (pt ++ suf)) then
          pyDelF (p :: pt) ((pt ++ suf).length) ((p :: (pt ++ suf)).drop (p :: pt).length)
        else p :: pyDelF (p :: pt) ((pt ++ suf).length) (pt ++ suf) from rfl]
  rw [if_pos hpref]
  simp only [List.length_cons, List.drop_succ_cons, List.drop_left]
  exact pyDelF_of_not_hasSub (p :: pt) suf ((pt ++ suf).length)
    (by rw [List.length_append]; omega) hsuf

/-- The Python replace pass genuinely deletes a clause: when `pat` occurs
exactly once (no occurrence starts inside the prefix or the suffix) its
removal yields the prefix joined to the suffix. -/
theorem pyReplace_removes_clause (pat : String) (p : Char) (pt : List Char)
    (hpat : pat.data = p :: pt) (pre suf : String)
    (hpre : noMatchStartingIn pat.data pre.data (pat.data ++ suf.data) = true)
    (hsuf : hasSub pat.data suf.data = false) :
    pyReplace (pre ++ pat ++ suf) pat = pre ++ suf := by
  have h := pyDelF_removes pat.data p pt hpat pre.data suf.data hpre hsuf
  show (⟨pyDelF pat.data (pre.data ++ pat.data ++ suf.data).length
      (pre.data ++ pat.data ++ suf.data)⟩ : String) = pre ++ suf
  rw [h]
  rfl

theorem pyContains_pk_of_decomp (d pre suf : String)
    (hd : d = pre ++ " PRIMARY KEY" ++ suf) :
    pyContains d "PRIMARY KEY" = true := by
  rw [hd]
  unfold pyContains
  show hasSub "PRIMARY KEY".data (pre.data ++ " PRIMARY KEY".data ++ suf.data) = true
  rw [List.append_assoc]
  apply hasSub_append_left
  rw [show " PRIMARY KEY".data ++ suf.data = ' ' :: ("PRIMARY KEY".data ++ suf.data) from rfl]
  exact hasSub_cons_of _ _ _
    (hasSub_of_isPrefixOf _ _ (isPrefixOf_self_append "PRIMARY KEY".data suf.data))

/-- `ColumnFix` from `schema/fix.py`: a column to be added via ALTER TABLE. -/
structure ColumnFix where
  table : String
  column : String
  definition : String
deriving DecidableEq, Repr

/-- `ColumnFix.to_sql` from `schema/fix.py`: keeps the whole definition when
it contains `REFERENCES`, otherwise strips `" NOT NULL"`; then strips
`" PRIMARY KEY"` when `"PRIMARY KEY"` occurs. -/
def ColumnFix.to_sql (f : ColumnFix) : String :=
  let d := f.definition
  let d := if pyContains d "REFERENCES" then d else pyReplace d " NOT NULL"
  let d := if pyContains d "PRIMARY KEY" then pyReplace d " PRIMARY KEY" else d
  "ALTER TABLE " ++ f.table ++ " ADD COLUMN " ++ f.column ++ " " ++ d ++ ";"

/-- `TableFix` from `schema/fix.py`. -/
structure TableFix where
  table : String
  create_sql : String
  is_recreate : Bool := false
deriving DecidableEq, Repr

/-- `TableFix.to_sql` returns the stored CREATE statement. -/
def TableFix.to_sql (f : TableFix) : String :=
  f.create_sql

/-- C3 counterexample: a definition containing both a REFERENCES clause and
NOT NULL yields SQL that still contains NOT NULL (the claim says NOT NULL
is always removed). -/
theorem c3_counterexample :
    (ColumnFix.mk "tasks" "owner_ref" "UUID NOT NULL REFERENCES users(id)").to_sql
        = "ALTER TABLE tasks ADD COLUMN owner_ref UUID NOT NULL REFERENCES users(id);"
      ∧ pyContains
          (ColumnFix.mk "tasks" "owner_ref" "UUID NOT NULL REFERENCES users(id)").to_sql
          " NOT NULL" = true := by
  constructor
  · decide
  · decide

/-- C3 amended: `to_sql` strips `" NOT NULL"` only from definitions without a
REFERENCES clause; a definition with a REFERENCES clause and no PRIMARY KEY
clause is embedded verbatim, NOT NULL included; and in both branches a
`" PRIMARY KEY"` clause, when present, is deleted by the replace pass — when
it occurs exactly once (no occurrence starts inside the prefix or the suffix)
the emitted SQL embeds the definition with the clause removed. -/
theorem c3_to_sql_strips (f : ColumnFix) :
    (pyContains f.definition "REFERENCES" = false →
      pyContains (pyReplace f.definition " NOT NULL") "PRIMARY KEY" = false →
      f.to_sql = "ALTER TABLE " ++ f.table ++ " ADD COLUMN " ++ f.column ++ " "
          ++ pyReplace f.definition " NOT NULL" ++ ";")
    ∧ (pyContains f.definition "REFERENCES" = true →
      pyContains f.definition "PRIMARY KEY" = false →
      f.to_sql = "ALTER TABLE " ++ f.table ++ " ADD COLUMN " ++ f.column ++ " "
          ++ f.definition ++ ";")
    ∧ (∀ pre suf : String, f.definition = pre ++ " PRIMARY KEY" ++ suf →
      pyContains f.definition "REFERENCES" = true →
      noMatchStartingIn " PRIMARY KEY".data pre.data (" PRIMARY KEY".data ++ suf.data) = true →
      hasSub " PRIMARY KEY".data suf.data = false →
      f.to_sql = "ALTER TABLE " ++ f.table ++ " ADD COLUMN " ++ f.column ++ " "
          ++ (pre ++ suf) ++ ";")
    ∧ (∀ pre suf : String, f.definition = pre ++ " PRIMARY KEY" ++ suf →
      pyContains f.definition "REFERENCES" = false →
      pyContains f.definition " NOT NULL" = false →
      noMatchStartingIn " PRIMARY KEY".data pre.data (" PRIMARY KEY".data ++ suf.data) = true →
      hasSub " PRIMARY KEY".data suf.data = false →
      f.to_sql = "ALTER TABLE " ++ f.table ++ " ADD COLUMN " ++ f.column ++ " "
          ++ (pre ++ suf) ++ ";") := by
  refine ⟨?_, ?_, ?_, ?_⟩
  · intro href hpk
    unfold ColumnFix.to_sql
    simp only [href, Bool.false_eq_true, if_false, hpk, if_false]
  · intro href hpk
    unfold ColumnFix.to_sql
    simp only [href, if_true, hpk, Bool.false_eq_true, if_false]
  · intro pre suf hd href hnm hsf
    have hpk : pyContains f.definition "PRIMARY KEY" = true :=
      pyContains_pk_of_decomp f.definition pre suf hd
    unfold ColumnFix.to_sql
    simp only [href, if_true, hpk]
    rw [hd, pyReplace_removes_clause " PRIMARY KEY" ' ' "PRIMARY KEY".data
      (by decide) pre suf hnm hsf]
  · intro pre suf hd href hnn hnm hsf
    have hd1 : pyReplace f.definition " NOT NULL" = f.definition :=
      pyReplace_of_not_contains f.definition " NOT NULL" hnn
    have hpk : pyContains f.definition "PRIMARY KEY" = true :=
      pyContains_pk_of_decomp f.definition pre suf hd
    unfold ColumnFix.to_sql
    simp only [href, Bool.false_eq_true, if_false, hd1, hpk, if_true]
    rw [hd, pyReplace_removes_clause " PRIMARY KEY" ' ' "PRIMARY KEY".data
      (by decide) pre suf hnm hsf]

theorem c3_to_sql_strips_witness :
    (pyContains "TEXT NOT NULL" "REFERENCES" = false
      ∧ pyContains (pyReplace "TEXT NOT NULL" " NOT NULL") "PRIMARY KEY" = false
      ∧ (ColumnFix.mk "users" "email" "TEXT NOT NULL").to_sql
          = "ALTER TABLE users ADD COLUMN email TEXT;")
    ∧ (pyContains "INT NOT NULL REFERENCES projects(id)" "REFERENCES" = true
      ∧ pyContains "INT NOT NULL REFERENCES projects(id)" "PRIMARY KEY" = false
      ∧ (ColumnFix.mk "tasks" "project_id" "INT NOT NULL REFERENCES projects(id)").to_sql
          = "ALTER TABLE tasks ADD COLUMN project_id INT NOT NULL REFERENCES projects(id);")
    ∧ (("INT PRIMARY KEY REFERENCES authors(id)" : String)
          = "INT" ++ " PRIMARY KEY" ++ " REFERENCES authors(id)"
      ∧ pyContains "INT PRIMARY KEY REFERENCES authors(id)" "REFERENCES" = true
      ∧ noMatchStartingIn " PRIMARY KEY".data "INT".data
          (" PRIMARY KEY".data ++ " REFERENCES authors(id)".data) = true
      ∧ hasSub " PRIMARY KEY".data " REFERENCES authors(id)".data = false
      ∧ (ColumnFix.mk "books" "author_id" "INT PRIMARY KEY REFERENCES authors(id)").to_sql
          = "ALTER TABLE books ADD COLUMN author_id INT REFERENCES authors(id);")
    ∧ (("UUID PRIMARY KEY" : String) = "UUID" ++ " PRIMARY KEY" ++ ""
      ∧ pyContains "UUID PRIMARY KEY" "REFERENCES" = false
      ∧ pyContains "UUID PRIMARY KEY" " NOT NULL" = false
      ∧ noMatchStartingIn " PRIMARY KEY".data "UUID".data
          (" PRIMARY KEY".data ++ ("" : String).data) = true
      ∧ hasSub " PRIMARY KEY".data ("" : String).data = false
      ∧ (ColumnFix.mk "users" "id" "UUID PRIMARY KEY").to_sql
          = "ALTER TABLE users ADD COLUMN id UUID;") := by
  refine ⟨⟨by decide, by decide, ?_⟩, ⟨by decide, by decide, ?_⟩,
    ⟨by decide, by decide, by decide, by decide, ?_⟩,
    ⟨by decide, by decide, by decide, by decide, by decide, ?_⟩⟩
  · have h := (c3_to_sql_strips (ColumnFix.mk "users" "email" "TEXT NOT NULL")).1
      (by decide) (by decide)
    rw [h]; decide
  · have h := (c3_to_sql_strips (ColumnFix.mk "tasks" "project_id"
      "INT NOT NULL REFERENCES projects(id)")).2.1 (by decide) (by decide)
    rw [h]; decide
  · have h := (c3_to_sql_strips (ColumnFix.mk "books" "author_id"
      "INT PRIMARY KEY REFERENCES authors(id)")).2.2.1 "INT" " REFERENCES authors(id)"
      (by decide) (by decide) (by decide) (by decide)
    rw [h]; decide
  · have h := (c3_to_sql_strips (ColumnFix.mk "users" "id" "UUID PRIMARY KEY")).2.2.2
      "UUID" "" (by decide) (by decide) (by decide) (by decide) (by decide)
    rw [h]; decide

/-! ## Schema comparator (`schema/comparator.py`, `schema/models.py`)

Python dicts `dict[str, set[str]]` are modelled as association lists whose
key lists are duplicate-free and whose value lists model sets; Python
`sorted` is modelled by an insertion sort. -/

/-- Ordered insertion used by `pySorted`. -/
def insOrd (x : String) : List String → List String
  | [] => [x]
  | y :: ys => if x ≤ y then x :: y :: ys else y :: insOrd x ys

/-- Python `sorted` on string lists. -/
def pySorted : List String → List String
  | [] => []
  | x :: xs => insOrd x (pySorted xs)

theorem insOrd_perm (x : String) (l : List String) : (insOrd x l).Perm (x :: l) := by
  induction l with
  | nil => simp [insOrd]
  | cons y ys ih =>
    by_cases h : x ≤ y
    · simp [insOrd, h]
    · simp only [insOrd, h, if_false]
      exact ((ih.cons y).trans (List.Perm.swap x y ys))

theorem pySorted_perm (l : List String) : (pySorted l).Perm l := by
  induction l with
  | nil => simp [pySorted]
  | cons x xs ih => exact (insOrd_perm x (pySorted xs)).trans (ih.cons x)

theorem insOrd_sorted (x : String) (l : List String) (h : l.Pairwise (· ≤ ·)) :
    (insOrd x l).Pairwise (· ≤ ·) := by
  induction l with
  | nil => simp [insOrd]
  | cons y ys ih =>
    by_cases hxy : x ≤ y
    · simp only [insOrd, hxy, if_true]
      refine List.Pairwise.cons ?_ h
      intro b hb
      rcases List.mem_cons.mp hb with rfl | hb
      · exact hxy
      · exact hxy.trans (List.rel_of_pairwise_cons h hb)
    · have hyx : y ≤ x := le_of_not_le hxy
      simp only [insOrd, hxy, if_false]
      refine List.Pairwise.cons ?_ (ih (List.Pairwise.of_cons h))
      intro b hb
      have hb' := (insOrd_perm x ys).mem_iff.mp hb
      rcases List.mem_cons.mp hb' with rfl | hb''
      · exact hyx
      · exact List.rel_of_pairwise_cons h hb''

theorem pySorted_sorted (l : List String) : (pySorted l).Pairwise (· ≤ ·) := by
  induction l with
  | nil => simp [pySorted]
  | cons x xs ih => exact insOrd_sorted x (pySorted xs) ih

theorem pySorted_nodup (l : List String) (h : l.Nodup) : (pySorted l).Nodup :=
  (pySorted_perm l).nodup_iff.mpr h

theorem pySorted_sorted_lt (l : List String) (h : l.Nodup) :
    (pySorted l).Pairwise (· < ·) := by
  have h1 := pySorted_sorted l
  have h2 : (pySorted l).Pairwise (· ≠ ·) := pySorted_nodup l h
  exact (h1.and h2).imp (fun hab => lt_of_le_of_ne hab.1 hab.2)

theorem pySorted_mem (a : String) (l : List String) : a ∈ pySorted l ↔ a ∈ l :=
  (pySorted_perm l).mem_iff

/-- `ColumnDiff` from `schema/models.py`. -/
structure ColumnDiff where
  table : String
  column : String
  message : String := ""
deriving DecidableEq, Repr

/-- `SchemaValidationResult` from `schema/models.py`. -/
structure SchemaValidationResult where
  valid : Bool
  missing_tables : List String := []
  missing_columns : List ColumnDiff := []
  extra_tables : List String := []
deriving DecidableEq, Repr

/-- `SchemaValidationResult.error_count`: missing tables plus missing columns. -/
def SchemaValidationResult.error_count (r : SchemaValidationResult) : Nat :=
  r.missing_tables.length + r.missing_columns.length

/-- Python dict lookup with `[]` as the out-of-dict value (lookups in the
source only happen on present keys). -/
def dictGet (d : List (String × List String)) (k : String) : List String :=
  match d.find? (fun p => p.1 == k) with
  | some p => p.2
  | none => []

/-- `validate_schema` from `schema/comparator.py`: pure set differences,
each output sorted. -/
def validate_schema (actual_columns expected_columns : List (String × List String)) :
    SchemaValidationResult :=
  let actual_tables := actual_columns.map Prod.fst
  let expected_tables := expected_columns.map Prod.fst
  let missing_tables := pySorted (expected_tables.filter (fun t => !actual_tables.contains t))
  let extra_tables := pySorted (actual_tables.filter (fun t => !expected_tables.contains t))
  let common := pySorted (expected_tables.filter (fun t => actual_tables.contains t))
  let missing_columns := common.flatMap (fun t =>
    (pySorted ((dictGet expected_columns t).filter
        (fun c => !(dictGet actual_columns t).contains c))).map
      (fun c => ColumnDiff.mk t c ("Column '" ++ c ++ "' missing from table '" ++ t ++ "'")))
  { valid := missing_tables.isEmpty && missing_columns.isEmpty,
    missing_tables := missing_tables, missing_columns := missing_columns,
    extra_tables := extra_tables }

/-- The report order claimed for `missing_columns`: by table, then column. -/
def diffLex (a b : ColumnDiff) : Prop :=
  a.table < b.table ∨ (a.table = b.table ∧ a.column < b.column)

theorem pairwise_lex_flatMap (f : String → List ColumnDiff) (l : List String)
    (hl : l.Pairwise (· < ·))
    (htab : ∀ t, ∀ d ∈ f t, d.table = t)
    (hblk : ∀ t, (f t).Pairwise (fun a b => a.column < b.column)) :
    (l.flatMap f).Pairwise diffLex := by
  induction l with
  | nil => simp
  | cons t ts ih =>
    rw [List.flatMap_cons, List.pairwise_append]
    refine ⟨?_, ih (List.Pairwise.of_cons hl), ?_⟩
    · refine List.Pairwise.imp_of_mem ?_ (hblk t)
      intro a b ha hb hcol
      exact Or.inr ⟨(htab t a ha).trans (htab t b hb).symm, hcol⟩
    · intro a ha b hb
      rcases List.mem_flatMap.mp hb with ⟨u, hu, hbu⟩
      have htu : t < u := List.rel_of_pairwise_cons hl hu
      exact Or.inl (by rw [htab t a ha, htab u b hbu]; exact htu)

/-- C9: `validate_schema` reports `missing_tables` and `extra_tables` in
strictly ascending order and `missing_columns` ordered by table then column. -/
theorem c9_validate_schema_sorted (actual_columns expected_columns : List (String × List String))
    (ha : (actual_columns.map Prod.fst).Nodup)
    (he : (expected_columns.map Prod.fst).Nodup)
    (hvals : ∀ p ∈ expected_columns, (p.2 : List String).Nodup) :
    (validate_schema actual_columns expected_columns).missing_tables.Pairwise (· < ·)
    ∧ (validate_schema actual_columns expected_columns).extra_tables.Pairwise (· < ·)
    ∧ (validate_schema actual_columns expected_columns).missing_columns.Pairwise diffLex := by
  refine ⟨?_, ?_, ?_⟩
  · exact pySorted_sorted_lt _ (he.filter _)
  · exact pySorted_sorted_lt _ (ha.filter _)
  · refine pairwise_lex_flatMap _ _ (pySorted_sorted_lt _ (he.filter _)) ?_ ?_
    · intro t d hd
      rcases List.mem_map.mp hd with ⟨c, _, rfl⟩
      rfl
    · intro t
      rw [List.pairwise_map]
      refine pySorted_sorted_lt _ (List.Nodup.filter _ ?_)
      unfold dictGet
      cases hfind : (expected_columns.find? (fun p => p.1 == t)) with
      | none => simp
      | some p => exact hvals p (List.mem_of_find?_eq_some hfind)

theorem c9_validate_schema_sorted_witness :
    ((([("users", ["id"]), ("extra_b", [])] : List (String × List String)).map Prod.fst).Nodup
      ∧ (([("users", ["name", "id", "email"]), ("orders", ["id"])]
          : List (String × List String)).map Prod.fst).Nodup
      ∧ ∀ p ∈ ([("users", ["name", "id", "email"]), ("orders", ["id"])]
          : List (String × List String)), (p.2 : List String).Nodup)
    ∧ ((validate_schema [("users", ["id"]), ("extra_b", [])]
          [("users", ["name", "id", "email"]), ("orders", ["id"])]).missing_tables.Pairwise (· < ·)
      ∧ (validate_schema [("users", ["id"]), ("extra_b", [])]
          [("users", ["name", "id", "email"]), ("orders", ["id"])]).extra_tables.Pairwise (· < ·)
      ∧ (validate_schema [("users", ["id"]), ("extra_b", [])]
          [("users", ["name", "id", "email"]), ("orders", ["id"])]).missing_columns.Pairwise diffLex) :=
  ⟨⟨by decide, by decide, by decide⟩,
    c9_validate_schema_sorted [("users", ["id"]), ("extra_b", [])]
      [("users", ["name", "id", "email"]), ("orders", ["id"])]
      (by decide) (by decide) (by decide)⟩

/-! ## FK dependency graph and topological sorter (`schema/fix.py`)

`_topological_sort` is a depth-first visit with a `visiting` set for cycle
tolerance.  The Python recursion is unbounded; the embedding carries a
fuel argument, and the theorems show that the fuel never runs out when the
restricted dependency graph admits a rank function (the finite-graph form
of acyclicity). -/

/-- One `visit(table)` call of `_topological_sort`: already-visited tables
(members of `sorted`) and in-progress tables (members of `visiting`, the
cycle-break branch) are skipped; otherwise the table's in-scope
dependencies are visited first and the table is appended. -/
def visitOne (rel : String → List String) : Nat → List String → String → List String → List String
  | 0, _, _, sorted => sorted
  | f + 1, visiting, t, sorted =>
    if t ∈ sorted then sorted
    else if t ∈ visiting then sorted
    else ((rel t).foldl (fun s d => visitOne rel f (t :: visiting) d s) sorted) ++ [t]

/-- The `relevant` dependency map of `_topological_sort`: dependencies
restricted to the tables under consideration. -/
def relOf (dependencies : String → List String) (tables : List String) :
    String → List String :=
  fun t => if t ∈ tables then (dependencies t).filter (fun d => decide (d ∈ tables)) else []

/-- `_topological_sort` from `schema/fix.py`: visit every table in caller
order, parents first in the output. -/
def topological_sort (dependencies : String → List String) (tables : List String) :
    List String :=
  tables.foldl
    (fun s t => visitOne (relOf dependencies tables) (tables.length + 1) [] t s) []

/-- Every table of `sorted` appears strictly after all its in-scope
dependencies. -/
def OrderOK (rel : String → List String) (sorted : List String) : Prop :=
  ∀ l₁ x l₂, sorted = l₁ ++ x :: l₂ → ∀ d ∈ rel x, d ∈ l₁

theorem orderOK_nil (rel : String → List String) : OrderOK rel [] := by
  intro l₁ x l₂ heq
  exact absurd heq (by simp)

theorem orderOK_append_singleton (rel : String → List String) (s : List String) (t : String)
    (hs : OrderOK rel s) (ht : ∀ d ∈ rel t, d ∈ s) : OrderOK rel (s ++ [t]) := by
  intro l₁ x l₂ heq d hd
  induction l₂ using List.reverseRecOn with
  | nil =>
    have h2 : t :: s.reverse = x :: l₁.reverse := by
      have := congrArg List.reverse heq
      simpa using this
    have h3 := List.cons.inj h2
    have hs_eq : s = l₁ := List.reverse_injective h3.2
    have hx : t = x := h3.1
    subst hs_eq
    subst hx
    exact ht d hd
  | append_singleton l₂h z _ =>
    have heq' : s ++ [t] = (l₁ ++ x :: l₂h) ++ [z] := by
      rw [heq]; simp
    have h2 : t :: s.reverse = z :: (l₁ ++ x :: l₂h).reverse := by
      have := congrArg List.reverse heq'
      simpa using this
    have hs_eq : s = l₁ ++ x :: l₂h :=
      List.reverse_injective (List.cons.inj h2).2
    exact hs l₁ x l₂h hs_eq d hd

theorem visit_fold_spec (rel : String → List String) (r : String → Nat)
    (hrel : ∀ t d, d ∈ rel t → r d < r t) :
    ∀ fuel : Nat,
      (∀ visiting t sorted, r t < fuel → (∀ v ∈ visiting, r t < r v) →
        sorted.Nodup → OrderOK rel sorted →
        ∃ ext, visitOne rel fuel visiting t sorted = sorted ++ ext
          ∧ (sorted ++ ext).Nodup ∧ OrderOK rel (sorted ++ ext)
          ∧ t ∈ sorted ++ ext
          ∧ ∀ x ∈ ext, r x ≤ r t)
      ∧ (∀ visiting (ds : List String) sorted,
        (∀ d ∈ ds, r d < fuel) → (∀ d ∈ ds, ∀ v ∈ visiting, r d < r v) →
        sorted.Nodup → OrderOK rel sorted →
        ∃ ext, ds.foldl (fun s d => visitOne rel fuel visiting d s) sorted = sorted ++ ext
          ∧ (sorted ++ ext).Nodup ∧ OrderOK rel (sorted ++ ext)
          ∧ (∀ d ∈ ds, d ∈ sorted ++ ext)
          ∧ ∀ x ∈ ext, ∃ d ∈ ds, r x ≤ r d) := by
  intro fuel
  induction fuel with
  | zero =>
    constructor
    · intro visiting t sorted hrt
      exact absurd hrt (Nat.not_lt_zero _)
    · intro visiting ds sorted h1 _ hnd hord
      cases ds with
      | nil => exact ⟨[], by simp, by simpa using hnd, by simpa using hord, by simp, by simp⟩
      | cons d ds' => exact absurd (h1 d (List.mem_cons_self d ds')) (Nat.not_lt_zero _)
  | succ f ih =>
    have hvisit : ∀ visiting t sorted, r t < f + 1 → (∀ v ∈ visiting, r t < r v) →
        sorted.Nodup → OrderOK rel sorted →
        ∃ ext, visitOne rel (f + 1) visiting t sorted = sorted ++ ext
          ∧ (sorted ++ ext).Nodup ∧ OrderOK rel (sorted ++ ext)
          ∧ t ∈ sorted ++ ext
          ∧ ∀ x ∈ ext, r x ≤ r t := by
      intro visiting t sorted hrt hvis hnd hord
      by_cases hts : t ∈ sorted
      · exact ⟨[], by simp [visitOne, hts], by simpa using hnd, by simpa using hord,
          by simpa using hts, by simp⟩
      · by_cases htv : t ∈ visiting
        · exact absurd (hvis t htv) (lt_irrefl _)
        · have h1 : ∀ d ∈ rel t, r d < f :=
            fun d hd => Nat.lt_of_lt_of_le (hrel t d hd) (Nat.lt_succ_iff.mp hrt)
          have h2 : ∀ d ∈ rel t, ∀ v ∈ t :: visiting, r d < r v := by
            intro d hd v hv
            rcases List.mem_cons.mp hv with hveq | hv'
            · rw [hveq]; exact hrel t d hd
            · exact (hrel t d hd).trans (hvis v hv')
          obtain ⟨e1, he1, hnd1, hord1, hmem1, hrk1⟩ :=
            ih.2 (t :: visiting) (rel t) sorted h1 h2 hnd hord
          have htne : t ∉ sorted ++ e1 := by
            intro hmem
            rcases List.mem_append.mp hmem with h | h
            · exact hts h
            · obtain ⟨d, hd, hrd⟩ := hrk1 t h
              exact absurd (Nat.lt_of_le_of_lt hrd (hrel t d hd)) (lt_irrefl _)
          refine ⟨e1 ++ [t], ?_, ?_, ?_, ?_, ?_⟩
          · simp only [visitOne, hts, if_false, htv, if_false, he1, List.append_assoc]
          · rw [← List.append_assoc]
            exact List.Nodup.append hnd1 (List.nodup_singleton t)
              (by intro a ha hb; simp at hb; exact htne (hb ▸ ha))
          · rw [← List.append_assoc]
            refine orderOK_append_singleton rel _ t hord1 ?_
            intro d hd
            exact hmem1 d hd
          · simp
          · intro x hx
            rcases List.mem_append.mp hx with h | h
            · obtain ⟨d, hd, hrd⟩ := hrk1 x h
              exact hrd.trans (Nat.le_of_lt (hrel t d hd))
            · simp at h
              exact h ▸ Nat.le_refl _
    refine ⟨hvisit, ?_⟩
    intro visiting ds
    induction ds with
    | nil =>
      intro sorted _ _ hnd hord
      exact ⟨[], by simp, by simpa using hnd, by simpa using hord, by simp, by simp⟩
    | cons d ds' ihds =>
      intro sorted h1 h2 hnd hord
      obtain ⟨e1, he1, hnd1, hord1, hmem1, hrk1⟩ :=
        hvisit visiting d sorted (h1 d (List.mem_cons_self d ds'))
          (h2 d (List.mem_cons_self d ds')) hnd hord
      obtain ⟨e2, he2, hnd2, hord2, hmem2, hrk2⟩ :=
        ihds (sorted ++ e1)
          (fun x hx => h1 x (List.mem_cons_of_mem d hx))
          (fun x hx => h2 x (List.mem_cons_of_mem d hx)) hnd1 hord1
      refine ⟨e1 ++ e2, ?_, ?_, ?_, ?_, ?_⟩
      · rw [List.foldl_cons, he1, he2, List.append_assoc]
      · rw [← List.append_assoc]; exact hnd2
      · rw [← List.append_assoc]; exact hord2
      · intro x hx
        rw [← List.append_assoc]
        rcases List.mem_cons.mp hx with rfl | hx'
        · exact List.mem_append_left e2 hmem1
        · exact hmem2 x hx'
      · intro x hx
        rcases List.mem_append.mp hx with h | h
        · exact ⟨d, List.mem_cons_self d ds', hrk1 x h⟩
        · obtain ⟨d', hd', hrd'⟩ := hrk2 x h
          exact ⟨d', List.mem_cons_of_mem d hd', hrd'⟩

/-- The sorter's guarantee: with a rank function witnessing acyclicity of
the restricted graph, the output is duplicate-free, contains every input
table, and places every table strictly after all its in-scope
dependencies. -/
theorem topological_sort_spec (dependencies : String → List String) (tables : List String)
    (r : String → Nat)
    (hr : ∀ t ∈ tables, ∀ d ∈ dependencies t, d ∈ tables → r d < r t)
    (hb : ∀ t ∈ tables, r t ≤ tables.length) :
    (topological_sort dependencies tables).Nodup
    ∧ OrderOK (relOf dependencies tables) (topological_sort dependencies tables)
    ∧ ∀ t ∈ tables, t ∈ topological_sort dependencies tables := by
  have hrel : ∀ t d, d ∈ relOf dependencies tables t → r d < r t := by
    intro t d hd
    unfold relOf at hd
    by_cases ht : t ∈ tables
    · simp only [ht, if_true, List.mem_filter, decide_eq_true_eq] at hd
      exact hr t ht d hd.1 hd.2
    · simp [ht] at hd
  obtain ⟨ext, hfold, hnd, hord, hmem, _⟩ :=
    (visit_fold_spec (relOf dependencies tables) r hrel (tables.length + 1)).2
      [] tables []
      (fun t ht => Nat.lt_succ_of_le (hb t ht))
      (by intro d _ v hv; exact absurd hv (List.not_mem_nil v))
      List.nodup_nil (orderOK_nil _)
  unfold topological_sort
  rw [hfold]
  exact ⟨by simpa using hnd, by simpa using hord, by simpa using hmem⟩

/-! ## Fix planner (`schema/fix.py`, `generate_fix_plan`)

`_get_table_create_sql` and `_parse_fk_dependencies` read and regex-match
the schema file; they are modelled as environment parameters
`get_create_sql : String → Except String String` (the `Except.error` case
is the `FileNotFoundError`/`ValueError` the Python helper raises, carrying
its message) and `fk_deps : String → List String` (the parsed dependency
dict, `{}` lookups defaulting to the empty set). -/

/-- A lemma used to track where the sorter's output elements come from:
every output element was already in the accumulator, is a visited table, or
is somebody's dependency. -/
theorem visit_mem_src (rel : String → List String) :
    ∀ fuel : Nat,
      (∀ visiting t sorted x, x ∈ visitOne rel fuel visiting t sorted →
        x ∈ sorted ∨ x = t ∨ ∃ u, x ∈ rel u)
      ∧ (∀ visiting (ds : List String) sorted x,
        x ∈ ds.foldl (fun s d => visitOne rel fuel visiting d s) sorted →
        x ∈ sorted ∨ x ∈ ds ∨ ∃ u, x ∈ rel u) := by
  intro fuel
  induction fuel with
  | zero =>
    constructor
    · intro visiting t sorted x hx
      exact Or.inl hx
    · intro visiting ds sorted x hx
      induction ds generalizing sorted with
      | nil => exact Or.inl hx
      | cons d ds' ihds =>
        rcases ihds _ hx with h | h | h
        · exact Or.inl h
        · exact Or.inr (Or.inl (List.mem_cons_of_mem d h))
        · exact Or.inr (Or.inr h)
  | succ f ih =>
    have hv : ∀ visiting t sorted x, x ∈ visitOne rel (f + 1) visiting t sorted →
        x ∈ sorted ∨ x = t ∨ ∃ u, x ∈ rel u := by
      intro visiting t sorted x hx
      by_cases hts : t ∈ sorted
      · simp only [visitOne, hts, if_true] at hx
        exact Or.inl hx
      · by_cases htv : t ∈ visiting
        · simp only [visitOne, hts, if_false, htv, if_true] at hx
          exact Or.inl hx
        · simp only [visitOne, hts, if_false, htv] at hx
          rcases List.mem_append.mp hx with h | h
          · rcases ih.2 (t :: visiting) (rel t) sorted x h with h' | h' | h'
            · exact Or.inl h'
            · exact Or.inr (Or.inr ⟨t, h'⟩)
            · exact Or.inr (Or.inr h')
          · simp at h
            exact Or.inr (Or.inl h)
    refine ⟨hv, ?_⟩
    intro visiting ds sorted x hx
    induction ds generalizing sorted with
    | nil => exact Or.inl hx
    | cons d ds' ihds =>
      rcases ihds _ hx with h | h | h
      · rcases hv visiting d sorted x h with h' | h' | h'
        · exact Or.inl h'
        · exact Or.inr (Or.inl (h' ▸ List.mem_cons_self d ds'))
        · exact Or.inr (Or.inr h')
      · exact Or.inr (Or.inl (List.mem_cons_of_mem d h))
      · exact Or.inr (Or.inr h)

/-- Elements of the sorter's output are tables of its input list. -/
theorem topological_sort_subset (dependencies : String → List String)
    (tables : List String) :
    ∀ x ∈ topological_sort dependencies tables, x ∈ tables := by
  intro x hx
  unfold topological_sort at hx
  rcases (visit_mem_src (relOf dependencies tables) (tables.length + 1)).2
      [] tables [] x hx with h | h | h
  · exact absurd h (List.not_mem_nil x)
  · exact h
  · obtain ⟨u, hu⟩ := h
    unfold relOf at hu
    by_cases hut : u ∈ tables
    · simp only [hut, if_true, List.mem_filter, decide_eq_true_eq] at hu
      exact hu.2
    · simp [hut] at hu

/-- `FixPlan` from `schema/fix.py`. -/
structure FixPlan where
  missing_tables : List TableFix := []
  missing_columns : List ColumnFix := []
  tables_to_recreate : List TableFix := []
  drop_order : List String := []
  create_order : List String := []
  error : Option String := none
deriving DecidableEq, Repr

/-- `FixPlan.has_fixes`. -/
def FixPlan.has_fixes (p : FixPlan) : Bool :=
  !p.missing_tables.isEmpty || !p.missing_columns.isEmpty || !p.tables_to_recreate.isEmpty

/-- `FixPlan.fix_count`. -/
def FixPlan.fix_count (p : FixPlan) : Nat :=
  p.missing_tables.length + p.missing_columns.length + p.tables_to_recreate.length

/-- `FixResult` from `schema/fix.py`. -/
structure FixResult where
  success : Bool := false
  backup_path : Option String := none
  tables_created : Nat := 0
  tables_recreated : Nat := 0
  columns_added : Nat := 0
  error : Option String := none
deriving DecidableEq, Repr

/-- Python dict lookup on a `"table.column" -> definition` mapping. -/
def strLookup (d : List (String × String)) (k : String) : Option String :=
  (d.find? (fun p => p.1 == k)).map Prod.snd

/-- The missing-tables loop of `generate_fix_plan`: append a `TableFix` per
table, stopping with the raised message on the first lookup failure. -/
def buildMissingTables (get_create_sql : String → Except String String) :
    List String → List TableFix → List TableFix × Option String
  | [], acc => (acc, none)
  | t :: ts, acc =>
    match get_create_sql t with
    | .ok sql => buildMissingTables get_create_sql ts (acc ++ [TableFix.mk t sql false])
    | .error e => (acc, some e)

/-- `defaultdict(list)` appending: extend the first group with this key, or
open a new group at the end. -/
def groupAdd (groups : List (String × List (String × String))) (t : String)
    (cd : String × String) : List (String × List (String × String)) :=
  match groups with
  | [] => [(t, [cd])]
  | (u, cs) :: rest =>
    if u == t then (u, cs ++ [cd]) :: rest else (u, cs) :: groupAdd rest t cd

/-- The grouping loop of `generate_fix_plan`: group missing columns by
table, stopping with the unknown-definition error on the first column whose
`"table.column"` key is absent. -/
def buildGroups (column_definitions : List (String × String)) :
    List ColumnDiff → List (String × List (String × String)) →
      List (String × List (String × String)) × Option String
  | [], acc => (acc, none)
  | cd :: rest, acc =>
    match strLookup column_definitions (cd.table ++ "." ++ cd.column) with
    | some defn =>
      buildGroups column_definitions rest (groupAdd acc cd.table (cd.column, defn))
    | none => (acc, some ("Unknown column definition for " ++ cd.table ++ "." ++ cd.column))

/-- The threshold loop of `generate_fix_plan`: two or more missing columns
mean a recreate `TableFix`, one missing column an `ALTER` `ColumnFix`. -/
def buildRecreate (get_create_sql : String → Except String String) :
    List (String × List (String × String)) → List TableFix → List ColumnFix →
      List TableFix × List ColumnFix × Option String
  | [], recs, cols => (recs, cols, none)
  | (t, cs) :: rest, recs, cols =>
    if cs.length ≥ 2 then
      match get_create_sql t with
      | .ok sql => buildRecreate get_create_sql rest (recs ++ [TableFix.mk t sql true]) cols
      | .error e => (recs, cols, some e)
    else
      match cs with
      | [] => buildRecreate get_create_sql rest recs cols
      | c :: _ => buildRecreate get_create_sql rest recs (cols ++ [ColumnFix.mk t c.1 c.2])

/-- `generate_fix_plan` from `schema/fix.py`. -/
def generate_fix_plan (validation_result : SchemaValidationResult)
    (column_definitions : List (String × String))
    (get_create_sql : String → Except String String)
    (fk_deps : String → List String) : FixPlan :=
  if validation_result.error_count == 0 then {}
  else
    match buildMissingTables get_create_sql validation_result.missing_tables [] with
    | (mts, some e) => { missing_tables := mts, error := some e }
    | (mts, none) =>
      match buildGroups column_definitions validation_result.missing_columns [] with
      | (_, some e) => { missing_tables := mts, error := some e }
      | (groups, none) =>
        match buildRecreate get_create_sql groups [] [] with
        | (recs, cols, some e) =>
          { missing_tables := mts, missing_columns := cols,
            tables_to_recreate := recs, error := some e }
        | (recs, cols, none) =>
          let all_affected := mts.map TableFix.table ++ recs.map TableFix.table
          if all_affected.isEmpty then
            { missing_tables := mts, missing_columns := cols, tables_to_recreate := recs }
          else
            let forward := topological_sort fk_deps all_affected
            { missing_tables := mts, missing_columns := cols, tables_to_recreate := recs,
              create_order := forward, drop_order := forward.reverse }

/-- The tables a plan touches with CREATE/DROP statements. -/
def affectedTables (p : FixPlan) : List String :=
  p.missing_tables.map TableFix.table ++ p.tables_to_recreate.map TableFix.table

theorem generate_fix_plan_orders (vr : SchemaValidationResult)
    (cd : List (String × String)) (gcs : String → Except String String)
    (deps : String → List String) :
    (generate_fix_plan vr cd gcs deps).drop_order
      = (generate_fix_plan vr cd gcs deps).create_order.reverse
    ∧ ((generate_fix_plan vr cd gcs deps).create_order = []
      ∨ (generate_fix_plan vr cd gcs deps).create_order
          = topological_sort deps (affectedTables (generate_fix_plan vr cd gcs deps))) := by
  unfold generate_fix_plan
  split
  · exact ⟨rfl, Or.inl rfl⟩
  · split
    · exact ⟨rfl, Or.inl rfl⟩
    · split
      · exact ⟨rfl, Or.inl rfl⟩
      · split
        · exact ⟨rfl, Or.inl rfl⟩
        · dsimp only
          split
          · exact ⟨rfl, Or.inl rfl⟩
          · exact ⟨rfl, Or.inr rfl⟩

/-- C5: `drop_order` is always the reverse of `create_order`, and whenever a
rank function certifies that the FK graph restricted to the plan's affected
tables is acyclic, every table of `create_order` appears strictly after each
of its in-scope dependencies. -/
theorem c5_plan_ordering (vr : SchemaValidationResult) (cd : List (String × String))
    (gcs : String → Except String String) (deps : String → List String)
    (r : String → Nat) :
    (generate_fix_plan vr cd gcs deps).drop_order
        = (generate_fix_plan vr cd gcs deps).create_order.reverse
    ∧ ((∀ t ∈ affectedTables (generate_fix_plan vr cd gcs deps), ∀ d ∈ deps t,
          d ∈ affectedTables (generate_fix_plan vr cd gcs deps) → r d < r t) →
       (∀ t ∈ affectedTables (generate_fix_plan vr cd gcs deps),
          r t ≤ (affectedTables (generate_fix_plan vr cd gcs deps)).length) →
       ∀ l₁ x l₂, (generate_fix_plan vr cd gcs deps).create_order = l₁ ++ x :: l₂ →
         ∀ d ∈ deps x, d ∈ affectedTables (generate_fix_plan vr cd gcs deps) → d ∈ l₁) := by
  obtain ⟨hrev, horders⟩ := generate_fix_plan_orders vr cd gcs deps
  refine ⟨hrev, ?_⟩
  intro hr hb l₁ x l₂ heq d hd hdA
  rcases horders with hnil | htopo
  · rw [hnil] at heq
    exact absurd heq.symm (by simp)
  · obtain ⟨_, hord, _⟩ :=
      topological_sort_spec deps (affectedTables (generate_fix_plan vr cd gcs deps)) r hr hb
    have hxA : x ∈ affectedTables (generate_fix_plan vr cd gcs deps) := by
      refine topological_sort_subset deps _ x ?_
      rw [← htopo, heq]
      simp
    refine hord l₁ x l₂ (by rw [← htopo, heq]) d ?_
    unfold relOf
    simp only [hxA, if_true, List.mem_filter, decide_eq_true_eq]
    exact ⟨hd, hdA⟩

theorem c5_plan_ordering_witness :
    ((generate_fix_plan (SchemaValidationResult.mk false ["books", "authors"] [] []) []
        (fun t => Except.ok ("CREATE TABLE " ++ t ++ " ();"))
        (fun t => if t == "books" then ["authors"] else [])).drop_order
      = (generate_fix_plan (SchemaValidationResult.mk false ["books", "authors"] [] []) []
        (fun t => Except.ok ("CREATE TABLE " ++ t ++ " ();"))
        (fun t => if t == "books" then ["authors"] else [])).create_order.reverse)
    ∧ (∀ l₁ x l₂,
        (generate_fix_plan (SchemaValidationResult.mk false ["books", "authors"] [] []) []
          (fun t => Except.ok ("CREATE TABLE " ++ t ++ " ();"))
          (fun t => if t == "books" then ["authors"] else [])).create_order = l₁ ++ x :: l₂ →
        ∀ d ∈ (if x == "books" then ["authors"] else [] : List String),
          d ∈ affectedTables (generate_fix_plan
            (SchemaValidationResult.mk false ["books", "authors"] [] []) []
            (fun t => Except.ok ("CREATE TABLE " ++ t ++ " ();"))
            (fun t => if t == "books" then ["authors"] else [])) → d ∈ l₁) := by
  have h := c5_plan_ordering (SchemaValidationResult.mk false ["books", "authors"] [] []) []
    (fun t => Except.ok ("CREATE TABLE " ++ t ++ " ();"))
    (fun t => if t == "books" then ["authors"] else [])
    (fun t => if t == "books" then 1 else 0)
  exact ⟨h.1, h.2 (by decide) (by decide)⟩

/-- The payload of a successful create-SQL lookup. -/
def exceptVal : Except String String → String
  | .ok v => v
  | .error _ => ""

theorem buildMissingTables_ok (gcs : String → Except String String) :
    ∀ (ts : List String) (acc : List TableFix), (∀ t ∈ ts, (gcs t).isOk = true) →
      buildMissingTables gcs ts acc
        = (acc ++ ts.map (fun t => TableFix.mk t (exceptVal (gcs t)) false), none) := by
  intro ts
  induction ts with
  | nil => intro acc _; simp [buildMissingTables]
  | cons t ts' ih =>
    intro acc h
    have ht := h t (List.mem_cons_self t ts')
    cases hg : gcs t with
    | error e => rw [hg] at ht; simp [Except.isOk, Except.toBool] at ht
    | ok sql =>
      simp only [buildMissingTables, hg]
      rw [ih _ (fun u hu => h u (List.mem_cons_of_mem t hu))]
      simp [exceptVal, hg]

/-- First-match group lookup, the read counterpart of `groupAdd`. -/
def groupGet : List (String × List (String × String)) → String → List (String × String)
  | [], _ => []
  | (u, cs) :: rest, T => if u == T then cs else groupGet rest T

theorem groupGet_groupAdd (acc : List (String × List (String × String)))
    (t : String) (v : String × String) (T : String) :
    groupGet (groupAdd acc t v) T
      = if T = t then groupGet acc T ++ [v] else groupGet acc T := by
  induction acc with
  | nil =>
    by_cases hTt : T = t
    · subst hTt; simp [groupAdd, groupGet]
    · have h2 : ¬(t = T) := fun h => hTt h.symm
      simp [groupAdd, groupGet, hTt, h2]
  | cons p rest ih =>
    obtain ⟨u, cs⟩ := p
    by_cases hut : u = t
    · subst hut
      by_cases hTu : T = u
      · subst hTu; simp [groupAdd, groupGet]
      · have h2 : ¬(u = T) := fun h => hTu h.symm
        simp [groupAdd, groupGet, hTu, h2]
    · by_cases hTu : T = u
      · subst hTu
        have h2 : ¬(T = t) := fun h => hut h
        simp [groupAdd, groupGet, hut, h2]
      · have h2 : ¬(u = T) := fun h => hTu h.symm
        simp [groupAdd, groupGet, hut, hTu, h2, ih]

theorem groupAdd_keys (acc : List (String × List (String × String)))
    (t : String) (v : String × String) :
    (groupAdd acc t v).map Prod.fst
      = if t ∈ acc.map Prod.fst then acc.map Prod.fst else acc.map Prod.fst ++ [t] := by
  induction acc with
  | nil => simp [groupAdd]
  | cons p rest ih =>
    obtain ⟨u, cs⟩ := p
    by_cases hut : u = t
    · subst hut
      simp [groupAdd]
    · have hne : ¬(t = u) := fun h => hut h.symm
      by_cases htr : t ∈ rest.map Prod.fst
      · simp [groupAdd, hut, ih, htr, hne]
      · simp [groupAdd, hut, ih, htr, hne]

theorem buildGroups_ok (cd : List (String × String)) :
    ∀ (diffs : List ColumnDiff) (acc : List (String × List (String × String))),
      (∀ c ∈ diffs, (strLookup cd (c.table ++ "." ++ c.column)).isSome = true) →
      ∃ groups, buildGroups cd diffs acc = (groups, none)
        ∧ (∀ T, groupGet groups T = groupGet acc T
            ++ (diffs.filter (fun c => c.table == T)).map
                (fun c => (c.column, (strLookup cd (c.table ++ "." ++ c.column)).getD "")))
        ∧ (∀ k ∈ groups.map Prod.fst,
            k ∈ acc.map Prod.fst ∨ k ∈ diffs.map ColumnDiff.table)
        ∧ ((acc.map Prod.fst).Nodup → (groups.map Prod.fst).Nodup) := by
  intro diffs
  induction diffs with
  | nil =>
    intro acc _
    exact ⟨acc, by simp [buildGroups], by simp [groupGet], by simp, fun h => h⟩
  | cons c rest ih =>
    intro acc h
    have hc := h c (List.mem_cons_self c rest)
    cases hl : strLookup cd (c.table ++ "." ++ c.column) with
    | none => rw [hl] at hc; simp at hc
    | some defn =>
      obtain ⟨groups, hg, hget, hkeys, hnd⟩ :=
        ih (groupAdd acc c.table (c.column, defn))
          (fun u hu => h u (List.mem_cons_of_mem c hu))
      refine ⟨groups, by simp only [buildGroups, hl]; exact hg, ?_, ?_, ?_⟩
      · intro T
        rw [hget T, groupGet_groupAdd]
        by_cases hTt : T = c.table
        · subst hTt
          simp [hl, List.filter_cons]
        · have : ¬(c.table == T) = true := by
            simp only [beq_iff_eq]
            exact fun hh => hTt hh.symm
          simp [hTt, List.filter_cons, this]
      · intro k hk
        rcases hkeys k hk with hk' | hk'
        · rw [groupAdd_keys] at hk'
          by_cases hmem : c.table ∈ acc.map Prod.fst
          · rw [if_pos hmem] at hk'
            exact Or.inl hk'
          · rw [if_neg hmem] at hk'
            rcases List.mem_append.mp hk' with h' | h'
            · exact Or.inl h'
            · simp at h'
              exact Or.inr (by simp [h'])
        · exact Or.inr (by simp [List.mem_cons_of_mem, hk'])
      · intro hacc
        refine hnd ?_
        rw [groupAdd_keys]
        by_cases hmem : c.table ∈ acc.map Prod.fst
        · rw [if_pos hmem]; exact hacc
        · rw [if_neg hmem]
          exact List.Nodup.append hacc (List.nodup_singleton _)
            (by intro a ha hb; simp at hb; exact hmem (hb ▸ ha))

theorem filter_tab_nil {α : Type} (tab : α → String) (T : String) (ks : List String)
    (hT : T ∉ ks) (l : List α) (h : ∀ f ∈ l, tab f ∈ ks) :
    l.filter (fun f => tab f == T) = [] := by
  induction l with
  | nil => rfl
  | cons a l' ih =>
    have ha : ¬((tab a == T) = true) := by
      simp only [beq_iff_eq]
      intro hh
      exact hT (hh ▸ h a (List.mem_cons_self a l'))
    simp only [List.filter_cons, if_neg ha]
    exact ih (fun f hf => h f (List.mem_cons_of_mem a hf))

theorem buildRecreate_spec (gcs : String → Except String String) :
    ∀ (groups : List (String × List (String × String)))
      (recs : List TableFix) (cols : List ColumnFix),
      (∀ p ∈ groups, (gcs p.1).isOk = true) →
      (groups.map Prod.fst).Nodup →
      ∃ recs' cols',
        buildRecreate gcs groups recs cols = (recs ++ recs', cols ++ cols', none)
        ∧ (∀ f ∈ recs', TableFix.table f ∈ groups.map Prod.fst)
        ∧ (∀ f ∈ cols', ColumnFix.table f ∈ groups.map Prod.fst)
        ∧ ∀ T,
            ((groupGet groups T).length ≥ 2 →
              recs'.filter (fun f => f.table == T) = [TableFix.mk T (exceptVal (gcs T)) true]
              ∧ cols'.filter (fun f => f.table == T) = [])
          ∧ (∀ c, groupGet groups T = [c] →
              recs'.filter (fun f => f.table == T) = []
              ∧ cols'.filter (fun f => f.table == T) = [ColumnFix.mk T c.1 c.2])
          ∧ (groupGet groups T = [] →
              recs'.filter (fun f => f.table == T) = []
              ∧ cols'.filter (fun f => f.table == T) = []) := by
  intro groups
  induction groups with
  | nil =>
    intro recs cols _ _
    refine ⟨[], [], by simp [buildRecreate], by simp, by simp, ?_⟩
    intro T
    refine ⟨?_, ?_, ?_⟩
    · intro h; exact absurd h (by simp [groupGet])
    · intro c h; exact absurd h (by simp [groupGet])
    · intro _; exact ⟨rfl, rfl⟩
  | cons p rest ih =>
    obtain ⟨t, cs⟩ := p
    intro recs cols hok hnd
    have hokt : (gcs t).isOk = true := hok (t, cs) (List.mem_cons_self _ rest)
    have hokr : ∀ p ∈ rest, (gcs p.1).isOk = true :=
      fun p hp => hok p (List.mem_cons_of_mem _ hp)
    have hndr : (rest.map Prod.fst).Nodup := (List.nodup_cons.mp (by simpa using hnd)).2
    have htr : t ∉ rest.map Prod.fst := (List.nodup_cons.mp (by simpa using hnd)).1
    by_cases hlen : cs.length ≥ 2
    · cases hg : gcs t with
      | error e => rw [hg] at hokt; simp [Except.isOk, Except.toBool] at hokt
      | ok sql =>
        obtain ⟨recs'r, cols'r, hrun, hrmem, hcmem, hT⟩ :=
          ih (recs ++ [TableFix.mk t sql true]) cols hokr hndr
        refine ⟨TableFix.mk t sql true :: recs'r, cols'r, ?_, ?_, ?_, ?_⟩
        · simp only [buildRecreate, if_pos hlen, hg, hrun]
          simp
        · intro f hf
          rcases List.mem_cons.mp hf with rfl | hf'
          · exact by simp
          · exact List.mem_cons_of_mem _ (hrmem f hf')
        · intro f hf
          exact List.mem_cons_of_mem _ (hcmem f hf)
        · intro T
          by_cases hTt : T = t
          · subst hTt
            have hgetT : groupGet ((T, cs) :: rest) T = cs := by simp [groupGet]
            refine ⟨?_, ?_, ?_⟩
            · intro _
              constructor
              · have hrfil : recs'r.filter (fun f => f.table == T) = [] :=
                  filter_tab_nil TableFix.table T (rest.map Prod.fst) htr recs'r hrmem
                simp only [List.filter_cons]
                rw [if_pos (by simp)]
                rw [hrfil, hg]
                simp [exceptVal]
              · exact filter_tab_nil ColumnFix.table T (rest.map Prod.fst) htr cols'r hcmem
            · intro c hc
              rw [hgetT] at hc
              rw [hc] at hlen
              simp at hlen
            · intro hc
              rw [hgetT] at hc
              rw [hc] at hlen
              simp at hlen
          · have hgetT : groupGet ((t, cs) :: rest) T = groupGet rest T := by
              have : ¬((t == T) = true) := by
                simp only [beq_iff_eq]
                exact fun hh => hTt hh.symm
              simp [groupGet, this]
            have hhead : ¬(((TableFix.mk t sql true).table == T) = true) := by
              simp only [beq_iff_eq]
              exact fun hh => hTt hh.symm
            rw [hgetT]
            obtain ⟨h1, h2, h3⟩ := hT T
            refine ⟨?_, ?_, ?_⟩
            · intro hl
              obtain ⟨ha, hb⟩ := h1 hl
              exact ⟨by simp only [List.filter_cons, if_neg hhead]; exact ha, hb⟩
            · intro c hc
              obtain ⟨ha, hb⟩ := h2 c hc
              exact ⟨by simp only [List.filter_cons, if_neg hhead]; exact ha, hb⟩
            · intro hc
              obtain ⟨ha, hb⟩ := h3 hc
              exact ⟨by simp only [List.filter_cons, if_neg hhead]; exact ha, hb⟩
    · cases cs with
      | nil =>
        obtain ⟨recs'r, cols'r, hrun, hrmem, hcmem, hT⟩ := ih recs cols hokr hndr
        refine ⟨recs'r, cols'r, ?_, ?_, ?_, ?_⟩
        · simp only [buildRecreate, if_neg hlen]
          exact hrun
        · intro f hf
          exact List.mem_cons_of_mem _ (hrmem f hf)
        · intro f hf
          exact List.mem_cons_of_mem _ (hcmem f hf)
        · intro T
          by_cases hTt : T = t
          · subst hTt
            have hgetT : groupGet ((T, ([] : List (String × String))) :: rest) T = [] := by
              simp [groupGet]
            refine ⟨?_, ?_, ?_⟩
            · intro hl
              rw [hgetT] at hl
              simp at hl
            · intro c hc
              rw [hgetT] at hc
              exact absurd hc (by simp)
            · intro _
              exact ⟨filter_tab_nil TableFix.table T (rest.map Prod.fst) htr recs'r hrmem,
                filter_tab_nil ColumnFix.table T (rest.map Prod.fst) htr cols'r hcmem⟩
          · have hgetT : groupGet ((t, ([] : List (String × String))) :: rest) T
                = groupGet rest T := by
              have : ¬((t == T) = true) := by
                simp only [beq_iff_eq]
                exact fun hh => hTt hh.symm
              simp [groupGet, this]
            rw [hgetT]
            exact hT T
      | cons c cs0 =>
        obtain ⟨recs'r, cols'r, hrun, hrmem, hcmem, hT⟩ :=
          ih recs (cols ++ [ColumnFix.mk t c.1 c.2]) hokr hndr
        refine ⟨recs'r, ColumnFix.mk t c.1 c.2 :: cols'r, ?_, ?_, ?_, ?_⟩
        · simp only [buildRecreate, if_neg hlen, hrun]
          simp
        · intro f hf
          exact List.mem_cons_of_mem _ (hrmem f hf)
        · intro f hf
          rcases List.mem_cons.mp hf with rfl | hf'
          · exact by simp
          · exact List.mem_cons_of_mem _ (hcmem f hf')
        · intro T
          by_cases hTt : T = t
          · subst hTt
            have hgetT : groupGet ((T, c :: cs0) :: rest) T = c :: cs0 := by
              simp [groupGet]
            refine ⟨?_, ?_, ?_⟩
            · intro hl
              rw [hgetT] at hl
              exact absurd hl hlen
            · intro c' hc'
              rw [hgetT] at hc'
              have hcc : c' = c := ((List.cons.inj hc').1).symm
              constructor
              · exact filter_tab_nil TableFix.table T (rest.map Prod.fst) htr recs'r hrmem
              · have hcfil : cols'r.filter (fun f => f.table == T) = [] :=
                  filter_tab_nil ColumnFix.table T (rest.map Prod.fst) htr cols'r hcmem
                simp only [List.filter_cons]
                rw [if_pos (by simp)]
                rw [hcfil, hcc]
            · intro hc'
              rw [hgetT] at hc'
              exact absurd hc' (by simp)
          · have hgetT : groupGet ((t, c :: cs0) :: rest) T = groupGet rest T := by
              have : ¬((t == T) = true) := by
                simp only [beq_iff_eq]
                exact fun hh => hTt hh.symm
              simp [groupGet, this]
            have hhead : ¬(((ColumnFix.mk t c.1 c.2).table == T) = true) := by
              simp only [beq_iff_eq]
              exact fun hh => hTt hh.symm
            rw [hgetT]
            obtain ⟨h1, h2, h3⟩ := hT T
            refine ⟨?_, ?_, ?_⟩
            · intro hl
              obtain ⟨ha, hb⟩ := h1 hl
              exact ⟨ha, by simp only [List.filter_cons, if_neg hhead]; exact hb⟩
            · intro c' hc'
              obtain ⟨ha, hb⟩ := h2 c' hc'
              exact ⟨ha, by simp only [List.filter_cons, if_neg hhead]; exact hb⟩
            · intro hc'
              obtain ⟨ha, hb⟩ := h3 hc'
              exact ⟨ha, by simp only [List.filter_cons, if_neg hhead]; exact hb⟩

/-- C4 counterexample: with a second table whose missing column has no known
definition, plan generation aborts with an error and table `a` — which has
exactly one missing column with a known definition — gets no `ColumnFix` at
all, against the claim's universal quantification over validation results. -/
theorem c4_counterexample :
    ((SchemaValidationResult.mk false [] [ColumnDiff.mk "a" "x" "", ColumnDiff.mk "b" "y" ""] []).missing_columns.filter
        (fun c => c.table == "a")).length = 1
    ∧ (strLookup [("a.x", "TEXT")] "a.x").isSome = true
    ∧ (generate_fix_plan
        (SchemaValidationResult.mk false [] [ColumnDiff.mk "a" "x" "", ColumnDiff.mk "b" "y" ""] [])
        [("a.x", "TEXT")] (fun t => Except.ok ("CREATE TABLE " ++ t ++ " ();"))
        (fun _ => [])).missing_columns = []
    ∧ (generate_fix_plan
        (SchemaValidationResult.mk false [] [ColumnDiff.mk "a" "x" "", ColumnDiff.mk "b" "y" ""] [])
        [("a.x", "TEXT")] (fun t => Except.ok ("CREATE TABLE " ++ t ++ " ();"))
        (fun _ => [])).error = some "Unknown column definition for b.y" := by
  refine ⟨by decide, by decide, by decide, by decide⟩

/-- C4 amended: when every missing column has a known definition, the schema
file yields a CREATE statement for every missing or affected table, and `T`
is not itself a missing table, then a table with exactly one missing column
gets exactly one `ColumnFix` and no `TableFix`, and a table with two or more
missing columns gets exactly one recreate `TableFix` and no `ColumnFix`. -/
theorem c4_fix_plan_threshold (vr : SchemaValidationResult) (cd : List (String × String))
    (gcs : String → Except String String) (deps : String → List String) (T : String)
    (hdefs : ∀ c ∈ vr.missing_columns, (strLookup cd (c.table ++ "." ++ c.column)).isSome = true)
    (hmt : ∀ t ∈ vr.missing_tables, (gcs t).isOk = true)
    (hct : ∀ c ∈ vr.missing_columns, (gcs c.table).isOk = true)
    (hT : T ∉ vr.missing_tables) :
    (generate_fix_plan vr cd gcs deps).error = none
    ∧ ((vr.missing_columns.filter (fun c => c.table == T)).length = 1 →
        ∃ c : String × String, (generate_fix_plan vr cd gcs deps).missing_columns.filter (fun f => f.table == T)
            = [ColumnFix.mk T c.1 c.2]
        ∧ (generate_fix_plan vr cd gcs deps).tables_to_recreate.filter (fun f => f.table == T) = []
        ∧ (generate_fix_plan vr cd gcs deps).missing_tables.filter (fun f => f.table == T) = [])
    ∧ ((vr.missing_columns.filter (fun c => c.table == T)).length ≥ 2 →
        (generate_fix_plan vr cd gcs deps).missing_columns.filter (fun f => f.table == T) = []
        ∧ (generate_fix_plan vr cd gcs deps).tables_to_recreate.filter (fun f => f.table == T)
            = [TableFix.mk T (exceptVal (gcs T)) true]
        ∧ (generate_fix_plan vr cd gcs deps).missing_tables.filter (fun f => f.table == T) = []) := by
  by_cases h0 : (vr.error_count == 0) = true
  · have hmc : vr.missing_columns = [] := by
      have := beq_iff_eq.mp h0
      unfold SchemaValidationResult.error_count at this
      exact List.length_eq_zero.mp (Nat.eq_zero_of_add_eq_zero_left this)
    have hplan : generate_fix_plan vr cd gcs deps = {} := by
      unfold generate_fix_plan
      rw [if_pos h0]
    refine ⟨by rw [hplan], ?_, ?_⟩
    · intro hc1
      rw [hmc] at hc1
      simp at hc1
    · intro hc2
      rw [hmc] at hc2
      simp at hc2
  · have hrunMT := buildMissingTables_ok gcs vr.missing_tables [] hmt
    obtain ⟨groups, hrunG, hget, hkeysSub, hndG⟩ := buildGroups_ok cd vr.missing_columns [] hdefs
    have hndG' : (groups.map Prod.fst).Nodup := hndG (by simp)
    have hokG : ∀ p ∈ groups, (gcs p.1).isOk = true := by
      intro p hp
      have hk : p.1 ∈ groups.map Prod.fst := List.mem_map_of_mem Prod.fst hp
      rcases hkeysSub p.1 hk with h' | h'
      · simp at h'
      · rcases List.mem_map.mp h' with ⟨c, hc, hceq⟩
        rw [← hceq]
        exact hct c hc
    obtain ⟨recs', cols', hrunR, hrmem, hcmem, hTspec⟩ :=
      buildRecreate_spec gcs groups [] [] hokG hndG'
    have hmtfil : (vr.missing_tables.map
        (fun t => TableFix.mk t (exceptVal (gcs t)) false)).filter
          (fun f => f.table == T) = [] := by
      refine filter_tab_nil TableFix.table T vr.missing_tables hT _ ?_
      intro f hf
      rcases List.mem_map.mp hf with ⟨t, ht, hfe⟩
      rw [← hfe]
      exact ht
    have hfields : (generate_fix_plan vr cd gcs deps).error = none
        ∧ (generate_fix_plan vr cd gcs deps).missing_tables
            = vr.missing_tables.map (fun t => TableFix.mk t (exceptVal (gcs t)) false)
        ∧ (generate_fix_plan vr cd gcs deps).missing_columns = cols'
        ∧ (generate_fix_plan vr cd gcs deps).tables_to_recreate = recs' := by
      unfold generate_fix_plan
      rw [if_neg h0]
      rw [List.nil_append] at hrunMT
      rw [List.nil_append, List.nil_append] at hrunR
      simp only [hrunMT, hrunG, hrunR]
      split
      · exact ⟨rfl, rfl, rfl, rfl⟩
      · exact ⟨rfl, rfl, rfl, rfl⟩
    have hgetT : groupGet groups T
        = (vr.missing_columns.filter (fun c => c.table == T)).map
            (fun c => (c.column, (strLookup cd (c.table ++ "." ++ c.column)).getD "")) := by
      have := hget T
      simpa [groupGet] using this
    refine ⟨hfields.1, ?_, ?_⟩
    · intro hc1
      obtain ⟨c0, hc0⟩ := List.length_eq_one.mp hc1
      have hg1 : groupGet groups T
          = [(c0.column, (strLookup cd (c0.table ++ "." ++ c0.column)).getD "")] := by
        rw [hgetT, hc0]
        simp
      obtain ⟨hra, hrb⟩ := (hTspec T).2.1 _ hg1
      refine ⟨(c0.column, (strLookup cd (c0.table ++ "." ++ c0.column)).getD ""), ?_, ?_, ?_⟩
      · rw [hfields.2.2.1]
        exact hrb
      · rw [hfields.2.2.2]
        exact hra
      · rw [hfields.2.1]
        exact hmtfil
    · intro hc2
      have hg2 : (groupGet groups T).length ≥ 2 := by
        rw [hgetT]
        simpa using hc2
      obtain ⟨hra, hrb⟩ := (hTspec T).1 hg2
      refine ⟨?_, ?_, ?_⟩
      · rw [hfields.2.2.1]
        exact hrb
      · rw [hfields.2.2.2]
        exact hra
      · rw [hfields.2.1]
        exact hmtfil

theorem c4_fix_plan_threshold_witness :
    ((∀ c ∈ (SchemaValidationResult.mk false [] [ColumnDiff.mk "users" "email" "",
          ColumnDiff.mk "posts" "a" "", ColumnDiff.mk "posts" "b" ""] []).missing_columns,
        (strLookup [("users.email", "TEXT"), ("posts.a", "INT"), ("posts.b", "INT")]
          (c.table ++ "." ++ c.column)).isSome = true)
      ∧ ("users" : String) ∉ ([] : List String)
      ∧ ("posts" : String) ∉ ([] : List String))
    ∧ (∃ c : String × String, (generate_fix_plan
          (SchemaValidationResult.mk false [] [ColumnDiff.mk "users" "email" "",
            ColumnDiff.mk "posts" "a" "", ColumnDiff.mk "posts" "b" ""] [])
          [("users.email", "TEXT"), ("posts.a", "INT"), ("posts.b", "INT")]
          (fun t => Except.ok ("CREATE TABLE " ++ t ++ " ();"))
          (fun _ => [])).missing_columns.filter (fun f => f.table == "users")
            = [ColumnFix.mk "users" c.1 c.2]
        ∧ (generate_fix_plan
          (SchemaValidationResult.mk false [] [ColumnDiff.mk "users" "email" "",
            ColumnDiff.mk "posts" "a" "", ColumnDiff.mk "posts" "b" ""] [])
          [("users.email", "TEXT"), ("posts.a", "INT"), ("posts.b", "INT")]
          (fun t => Except.ok ("CREATE TABLE " ++ t ++ " ();"))
          (fun _ => [])).tables_to_recreate.filter (fun f => f.table == "users") = []
        ∧ (generate_fix_plan
          (SchemaValidationResult.mk false [] [ColumnDiff.mk "users" "email" "",
            ColumnDiff.mk "posts" "a" "", ColumnDiff.mk "posts" "b" ""] [])
          [("users.email", "TEXT"), ("posts.a", "INT"), ("posts.b", "INT")]
          (fun t => Except.ok ("CREATE TABLE " ++ t ++ " ();"))
          (fun _ => [])).missing_tables.filter (fun f => f.table == "users") = [])
    ∧ ((generate_fix_plan
          (SchemaValidationResult.mk false [] [ColumnDiff.mk "users" "email" "",
            ColumnDiff.mk "posts" "a" "", ColumnDiff.mk "posts" "b" ""] [])
          [("users.email", "TEXT"), ("posts.a", "INT"), ("posts.b", "INT")]
          (fun t => Except.ok ("CREATE TABLE " ++ t ++ " ();"))
          (fun _ => [])).missing_columns.filter (fun f => f.table == "posts") = []
        ∧ (generate_fix_plan
          (SchemaValidationResult.mk false [] [ColumnDiff.mk "users" "email" "",
            ColumnDiff.mk "posts" "a" "", ColumnDiff.mk "posts" "b" ""] [])
          [("users.email", "TEXT"), ("posts.a", "INT"), ("posts.b", "INT")]
          (fun t => Except.ok ("CREATE TABLE " ++ t ++ " ();"))
          (fun _ => [])).tables_to_recreate.filter (fun f => f.table == "posts")
            = [TableFix.mk "posts" (exceptVal (Except.ok ("CREATE TABLE posts ();"))) true]) := by
  refine ⟨⟨by decide, by decide, by decide⟩, ?_, ?_⟩
  · exact (c4_fix_plan_threshold
      (SchemaValidationResult.mk false [] [ColumnDiff.mk "users" "email" "",
        ColumnDiff.mk "posts" "a" "", ColumnDiff.mk "posts" "b" ""] [])
      [("users.email", "TEXT"), ("posts.a", "INT"), ("posts.b", "INT")]
      (fun t => Except.ok ("CREATE TABLE " ++ t ++ " ();")) (fun _ => []) "users"
      (by decide) (by decide) (by decide) (by decide)).2.1 (by decide)
  · have h := (c4_fix_plan_threshold
      (SchemaValidationResult.mk false [] [ColumnDiff.mk "users" "email" "",
        ColumnDiff.mk "posts" "a" "", ColumnDiff.mk "posts" "b" ""] [])
      [("users.email", "TEXT"), ("posts.a", "INT"), ("posts.b", "INT")]
      (fun t => Except.ok ("CREATE TABLE " ++ t ++ " ();")) (fun _ => []) "posts"
      (by decide) (by decide) (by decide) (by decide)).2.2 (by decide)
    exact ⟨h.1, h.2.1⟩

/-! ## Fix executor (`schema/fix.py`, `apply_fixes`)

Python exceptions are modelled by `PyExc`; `adapter.execute` is modelled
as a function from the DDL statement to an outcome, the optional
backup/restore/verify callbacks as optional outcome-returning functions.
`apply_fixes` returns `Except PyExc FixResult`: the `error` case is an
exception propagating to the caller. -/

/-- The exception classes `apply_fixes` distinguishes. -/
inductive PyExc where
  | notImplemented
  | runtimeError (msg : String)
  | other (msg : String)
deriving DecidableEq, Repr

/-- `str(e)` of a modelled exception. -/
def pyExcMsg : PyExc → String
  | .notImplemented => ""
  | .runtimeError m => m
  | .other m => m

/-- Python truthiness of an optional string (`if plan.error:`). -/
def pyTruthyOpt : Option String → Bool
  | none => false
  | some s => !s.isEmpty

/-- The message `apply_fixes` raises when `execute` is unsupported. -/
def ddlUnsupportedMsg : String := "DDL operations not supported for this adapter type"

/-- Dict lookup `{tf.table: tf}` built from a `TableFix` list (first match,
as the comprehension's last-wins on duplicate tables never occurs for plans
whose tables are distinct; lookups in the source only happen on present
keys). -/
def tfLookup (l : List TableFix) (t : String) : Option TableFix :=
  l.find? (fun tf => tf.table == t)

/-- `[t for t in order if t in map]` followed by appending the map's
remaining tables (the defensive fallback of `apply_fixes`). -/
def foldAddTables (l : List TableFix) (acc : List String) : List String :=
  l.foldl (fun acc tf => if tf.table ∈ acc then acc else acc ++ [tf.table]) acc

/-- Step 1 of `apply_fixes`: create missing tables, counting
`tables_created`, escalating `NotImplementedError` to `RuntimeError` and
carrying the partially updated result out with any exception. -/
def createLoop (execute : String → Except PyExc Unit) (mmap : List TableFix) :
    List String → FixResult → Except (PyExc × FixResult) FixResult
  | [], r => .ok r
  | t :: ts, r =>
    match tfLookup mmap t with
    | none => .error (.other ("KeyError: " ++ t), r)
    | some tf =>
      match execute tf.to_sql with
      | .error .notImplemented => .error (.runtimeError ddlUnsupportedMsg, r)
      | .error e => .error (e, r)
      | .ok _ => createLoop execute mmap ts { r with tables_created := r.tables_created + 1 }

/-- Step 2 of `apply_fixes`: back up (when a callback is given) and drop
each table slated for recreation, collecting the backup paths. -/
def dropLoop (execute : String → Except PyExc Unit)
    (backup_fn : Option (String → Except PyExc String)) :
    List String → FixResult → List (String × String) →
      Except (PyExc × FixResult) (FixResult × List (String × String))
  | [], r, paths => .ok (r, paths)
  | t :: ts, r, paths =>
    match backup_fn with
    | some bf =>
      match bf t with
      | .error e => .error (e, r)
      | .ok path =>
        let r' := if r.backup_path.isNone then { r with backup_path := some path } else r
        match execute ("DROP TABLE IF EXISTS " ++ t ++ " CASCADE;") with
        | .error .notImplemented => .error (.runtimeError ddlUnsupportedMsg, r')
        | .error e => .error (e, r')
        | .ok _ => dropLoop execute backup_fn ts r' (paths ++ [(t, path)])
    | none =>
      match execute ("DROP TABLE IF EXISTS " ++ t ++ " CASCADE;") with
      | .error .notImplemented => .error (.runtimeError ddlUnsupportedMsg, r)
      | .error e => .error (e, r)
      | .ok _ => dropLoop execute backup_fn ts r paths

/-- Step 2b of `apply_fixes`: re-create the dropped tables, counting
`tables_recreated`. -/
def recreateLoop (execute : String → Except PyExc Unit) (rmap : List TableFix) :
    List String → FixResult → Except (PyExc × FixResult) FixResult
  | [], r => .ok r
  | t :: ts, r =>
    match tfLookup rmap t with
    | none => .error (.other ("KeyError: " ++ t), r)
    | some tf =>
      match execute tf.to_sql with
      | .error .notImplemented => .error (.runtimeError ddlUnsupportedMsg, r)
      | .error e => .error (e, r)
      | .ok _ => recreateLoop execute rmap ts { r with tables_recreated := r.tables_recreated + 1 }

/-- Step 2c of `apply_fixes`: per-table restore callbacks for the tables
whose backup path was captured. -/
def restoreLoop (restore_fn : String → Except PyExc Unit)
    (paths : List (String × String)) : List String → Except PyExc Unit
  | [] => .ok ()
  | t :: ts =>
    match paths.find? (fun p => p.1 == t) with
    | some p =>
      match restore_fn p.2 with
      | .error e => .error e
      | .ok _ => restoreLoop restore_fn paths ts
    | none => restoreLoop restore_fn paths ts

/-- Step 3 of `apply_fixes`: apply the single-column ALTERs, counting
`columns_added`. -/
def columnLoop (execute : String → Except PyExc Unit) :
    List ColumnFix → FixResult → Except (PyExc × FixResult) FixResult
  | [], r => .ok r
  | cf :: cfs, r =>
    match execute cf.to_sql with
    | .error .notImplemented => .error (.runtimeError ddlUnsupportedMsg, r)
    | .error e => .error (e, r)
    | .ok _ => columnLoop execute cfs { r with columns_added := r.columns_added + 1 }

/-- The outer exception handler of `apply_fixes`: re-raise `RuntimeError`,
wrap anything else into the partially built result. -/
def wrapExc (e : PyExc) (r : FixResult) : Except PyExc FixResult :=
  match e with
  | .runtimeError m => .error (.runtimeError m)
  | e => .ok { r with error := some ("Failed to apply fixes: " ++ pyExcMsg e) }

/-- `apply_fixes` from `schema/fix.py`. -/
def apply_fixes (execute : String → Except PyExc Unit) (plan : FixPlan)
    (backup_fn : Option (String → Except PyExc String))
    (restore_fn : Option (String → Except PyExc Unit))
    (verify_fn : Option (Except PyExc Bool))
    (dry_run : Bool) (confirm : Bool) : Except PyExc FixResult :=
  let result : FixResult := {}
  if pyTruthyOpt plan.error then .ok { result with error := plan.error }
  else if !plan.has_fixes then .ok { result with success := true }
  else if dry_run then
    .ok ({ result with
            success := true
            tables_created := plan.missing_tables.length
            tables_recreated := plan.tables_to_recreate.length
            columns_added := plan.missing_columns.length })
  else if !confirm then .ok { result with error := some "Fix requires confirm=True" }
  else
    let tables_to_create := foldAddTables plan.missing_tables
      (plan.create_order.filter (fun t => (tfLookup plan.missing_tables t).isSome))
    match createLoop execute plan.missing_tables tables_to_create result with
    | .error (e, r) => wrapExc e r
    | .ok r1 =>
      let tables_to_drop := foldAddTables plan.tables_to_recreate
        (plan.drop_order.filter (fun t => (tfLookup plan.tables_to_recreate t).isSome))
      match dropLoop execute backup_fn tables_to_drop r1 [] with
      | .error (e, r) => wrapExc e r
      | .ok (r2, paths) =>
        let tables_after := foldAddTables plan.tables_to_recreate
          (plan.create_order.filter (fun t => (tfLookup plan.tables_to_recreate t).isSome))
        match recreateLoop execute plan.tables_to_recreate tables_after r2 with
        | .error (e, r) => wrapExc e r
        | .ok r3 =>
          match (match restore_fn with
                 | some rf => restoreLoop rf paths tables_after
                 | none => .ok ()) with
          | .error e => wrapExc e r3
          | .ok _ =>
            match columnLoop execute plan.missing_columns r3 with
            | .error (e, r) => wrapExc e r
            | .ok r4 =>
              match verify_fn with
              | some v =>
                match v with
                | .error e => wrapExc e r4
                | .ok true => .ok { r4 with success := true }
                | .ok false => .ok { r4 with error := some "Fix applied but verification failed" }
              | none => .ok { r4 with success := true }

/-- How one failing `execute` surfaces: `NotImplementedError` becomes the
capability `RuntimeError`, anything else is re-raised as itself. -/
def excConv (ex : PyExc) : PyExc :=
  match ex with
  | .notImplemented => .runtimeError ddlUnsupportedMsg
  | e => e

theorem filter_false_eq_nil (l : List String) (p : String → Bool)
    (h : ∀ x, p x = false) : l.filter p = [] := by
  induction l with
  | nil => rfl
  | cons a l' ih => simp [List.filter_cons, h a, ih]

theorem foldAddTables_mono : ∀ (l : List TableFix) (acc : List String) (u : String),
    u ∈ acc → u ∈ foldAddTables l acc := by
  intro l
  induction l with
  | nil => intro acc u hu; exact hu
  | cons tf rest ih =>
    intro acc u hu
    unfold foldAddTables
    rw [List.foldl_cons]
    by_cases hmem : tf.table ∈ acc
    · rw [if_pos hmem]; exact ih acc u hu
    · rw [if_neg hmem]; exact ih _ u (List.mem_append_left _ hu)

theorem foldAddTables_mem : ∀ (l : List TableFix) (acc : List String) (tf : TableFix),
    tf ∈ l → tf.table ∈ foldAddTables l acc := by
  intro l
  induction l with
  | nil => intro acc tf h; exact absurd h (List.not_mem_nil tf)
  | cons tf0 rest ih =>
    intro acc tf h
    rcases List.mem_cons.mp h with rfl | h'
    · unfold foldAddTables
      rw [List.foldl_cons]
      by_cases hmem : tf.table ∈ acc
      · rw [if_pos hmem]
        exact foldAddTables_mono rest acc _ hmem
      · rw [if_neg hmem]
        exact foldAddTables_mono rest _ _ (List.mem_append_right _ (by simp))
    · unfold foldAddTables
      rw [List.foldl_cons]
      by_cases hmem : tf0.table ∈ acc
      · rw [if_pos hmem]; exact ih acc tf h'
      · rw [if_neg hmem]; exact ih _ tf h'

theorem foldAddTables_sound : ∀ (l : List TableFix) (acc : List String) (u : String),
    u ∈ foldAddTables l acc → u ∈ acc ∨ ∃ tf ∈ l, u = tf.table := by
  intro l
  induction l with
  | nil => intro acc u hu; exact Or.inl hu
  | cons tf0 rest ih =>
    intro acc u hu
    unfold foldAddTables at hu
    rw [List.foldl_cons] at hu
    by_cases hmem : tf0.table ∈ acc
    · rw [if_pos hmem] at hu
      rcases ih acc u hu with h | ⟨tf, htf, he⟩
      · exact Or.inl h
      · exact Or.inr ⟨tf, List.mem_cons_of_mem _ htf, he⟩
    · rw [if_neg hmem] at hu
      rcases ih _ u hu with h | ⟨tf, htf, he⟩
      · rcases List.mem_append.mp h with h' | h'
        · exact Or.inl h'
        · simp at h'
          exact Or.inr ⟨tf0, List.mem_cons_self _ _, h'⟩
      · exact Or.inr ⟨tf, List.mem_cons_of_mem _ htf, he⟩

theorem tfLookup_isSome_of_mem (l : List TableFix) (tf : TableFix) (h : tf ∈ l) :
    (tfLookup l tf.table).isSome = true := by
  induction l with
  | nil => exact absurd h (List.not_mem_nil tf)
  | cons tf0 rest ih =>
    rcases List.mem_cons.mp h with rfl | h'
    · unfold tfLookup
      rw [List.find?_cons]
      simp
    · unfold tfLookup
      rw [List.find?_cons]
      cases hb : (tf0.table == tf.table)
      · exact ih h'
      · rfl

theorem createLoop_const_err (mmap : List TableFix) (ex : PyExc) (t : String)
    (ts : List String) (r : FixResult) (h : (tfLookup mmap t).isSome = true) :
    createLoop (fun _ => .error ex) mmap (t :: ts) r = .error (excConv ex, r) := by
  obtain ⟨tf, htf⟩ := Option.isSome_iff_exists.mp h
  cases ex <;> simp [createLoop, htf, excConv]

theorem recreateLoop_const_err (rmap : List TableFix) (ex : PyExc) (t : String)
    (ts : List String) (r : FixResult) (h : (tfLookup rmap t).isSome = true) :
    recreateLoop (fun _ => .error ex) rmap (t :: ts) r = .error (excConv ex, r) := by
  obtain ⟨tf, htf⟩ := Option.isSome_iff_exists.mp h
  cases ex <;> simp [recreateLoop, htf, excConv]

theorem dropLoop_const_err (ex : PyExc) (t : String) (ts : List String)
    (r : FixResult) (paths : List (String × String)) :
    dropLoop (fun _ => .error ex) none (t :: ts) r paths = .error (excConv ex, r) := by
  cases ex <;> simp [dropLoop, excConv]

theorem columnLoop_const_err (ex : PyExc) (cf : ColumnFix) (cfs : List ColumnFix)
    (r : FixResult) :
    columnLoop (fun _ => .error ex) (cf :: cfs) r = .error (excConv ex, r) := by
  cases ex <;> simp [columnLoop, excConv]

theorem apply_fixes_const_exec_err (plan : FixPlan)
    (restore_fn : Option (String → Except PyExc Unit)) (verify_fn : Option (Except PyExc Bool))
    (ex : PyExc)
    (herr : pyTruthyOpt plan.error = false) (hfix : plan.has_fixes = true) :
    apply_fixes (fun _ => .error ex) plan none restore_fn verify_fn false true
      = wrapExc (excConv ex) {} := by
  unfold apply_fixes
  rw [herr, hfix]
  simp only [Bool.not_true, if_false, Bool.false_eq_true]
  by_cases hmt0 : plan.missing_tables = []
  · have hbase : plan.create_order.filter
        (fun t => (tfLookup plan.missing_tables t).isSome) = [] := by
      refine filter_false_eq_nil _ _ ?_
      intro x
      rw [hmt0]
      rfl
    rw [hbase, hmt0]
    have hcl : createLoop (fun _ => .error ex) [] (foldAddTables [] []) {}
        = .ok ({} : FixResult) := rfl
    simp only [hcl]
    by_cases hmr0 : plan.tables_to_recreate = []
    · have hdbase : plan.drop_order.filter
          (fun t => (tfLookup plan.tables_to_recreate t).isSome) = [] := by
        refine filter_false_eq_nil _ _ ?_
        intro x
        rw [hmr0]
        rfl
      have hcbase : plan.create_order.filter
          (fun t => (tfLookup plan.tables_to_recreate t).isSome) = [] := by
        refine filter_false_eq_nil _ _ ?_
        intro x
        rw [hmr0]
        rfl
      rw [hdbase, hcbase, hmr0]
      have hdl : dropLoop (fun _ => .error ex) none (foldAddTables [] []) {} []
          = .ok (({} : FixResult), ([] : List (String × String))) := rfl
      simp only [hdl]
      have hrl : recreateLoop (fun _ => .error ex) [] (foldAddTables [] []) {}
          = .ok ({} : FixResult) := rfl
      simp only [hrl]
      have hrest : (match restore_fn with
          | some rf => restoreLoop rf [] (foldAddTables [] [])
          | none => Except.ok ()) = Except.ok () := by
        cases restore_fn with
        | none => rfl
        | some rf => rfl
      simp only [hrest]
      have hmc0 : plan.missing_columns ≠ [] := by
        intro hmc
        unfold FixPlan.has_fixes at hfix
        rw [hmt0, hmr0, hmc] at hfix
        simp at hfix
      obtain ⟨cf, cfs, hmc⟩ := List.exists_cons_of_ne_nil hmc0
      rw [hmc]
      simp only [columnLoop_const_err ex cf cfs]
    · obtain ⟨tf0, rrest, hmr⟩ := List.exists_cons_of_ne_nil hmr0
      have hne : foldAddTables plan.tables_to_recreate
          (plan.drop_order.filter (fun t => (tfLookup plan.tables_to_recreate t).isSome)) ≠ [] := by
        intro h0
        have hm := foldAddTables_mem plan.tables_to_recreate
          (plan.drop_order.filter (fun t => (tfLookup plan.tables_to_recreate t).isSome)) tf0
          (by rw [hmr]; exact List.mem_cons_self _ _)
        rw [h0] at hm
        exact absurd hm (List.not_mem_nil _)
      obtain ⟨t, ts, htd⟩ := List.exists_cons_of_ne_nil hne
      rw [htd]
      simp only [dropLoop_const_err ex t ts]
  · obtain ⟨tf0, mrest, hmt⟩ := List.exists_cons_of_ne_nil hmt0
    have hne : foldAddTables plan.missing_tables
        (plan.create_order.filter (fun t => (tfLookup plan.missing_tables t).isSome)) ≠ [] := by
      intro h0
      have hm := foldAddTables_mem plan.missing_tables
        (plan.create_order.filter (fun t => (tfLookup plan.missing_tables t).isSome)) tf0
        (by rw [hmt]; exact List.mem_cons_self _ _)
      rw [h0] at hm
      exact absurd hm (List.not_mem_nil _)
    obtain ⟨t, ts, htc⟩ := List.exists_cons_of_ne_nil hne
    have hts : t ∈ foldAddTables plan.missing_tables
        (plan.create_order.filter (fun t => (tfLookup plan.missing_tables t).isSome)) := by
      rw [htc]
      exact List.mem_cons_self _ _
    have hlook : (tfLookup plan.missing_tables t).isSome = true := by
      rcases foldAddTables_sound _ _ _ hts with h | ⟨tf, htf, he⟩
      · exact (List.mem_filter.mp h).2
      · rw [he]
        exact tfLookup_isSome_of_mem _ tf htf
    rw [htc]
    simp only [createLoop_const_err plan.missing_tables ex t ts _ hlook]

/-- C7 counterexample: an adapter whose `execute` raises `RuntimeError`
(neither `NotImplementedError` nor wrapped) propagates the exception out of
`apply_fixes` instead of being returned as a `FixResult`. -/
theorem c7_counterexample :
    apply_fixes (fun _ => .error (PyExc.runtimeError "connection lost"))
        (FixPlan.mk [] [ColumnFix.mk "users" "email" "TEXT"] [] [] [] none)
        none none none false true
      = .error (.runtimeError "connection lost") := by
  rfl

/-- C7 amended: `execute` raising `NotImplementedError` makes `apply_fixes`
raise the capability `RuntimeError`; an exception that is neither
`NotImplementedError` nor `RuntimeError` is caught and returned as a
`FixResult` with `success = false` and a wrapped message (but a
`RuntimeError` from `execute` is re-raised unwrapped). -/
theorem c7_apply_fixes_capability (plan : FixPlan)
    (restore_fn : Option (String → Except PyExc Unit)) (verify_fn : Option (Except PyExc Bool))
    (m : String)
    (herr : pyTruthyOpt plan.error = false) (hfix : plan.has_fixes = true) :
    apply_fixes (fun _ => .error PyExc.notImplemented) plan none restore_fn verify_fn false true
      = .error (.runtimeError ddlUnsupportedMsg)
    ∧ apply_fixes (fun _ => .error (PyExc.other m)) plan none restore_fn verify_fn false true
      = .ok (FixResult.mk false none 0 0 0 (some ("Failed to apply fixes: " ++ m)))
    ∧ apply_fixes (fun _ => .error (PyExc.runtimeError m)) plan none restore_fn verify_fn false true
      = .error (.runtimeError m) := by
  refine ⟨?_, ?_, ?_⟩
  · rw [apply_fixes_const_exec_err plan restore_fn verify_fn PyExc.notImplemented herr hfix]
    rfl
  · rw [apply_fixes_const_exec_err plan restore_fn verify_fn (PyExc.other m) herr hfix]
    rfl
  · rw [apply_fixes_const_exec_err plan restore_fn verify_fn (PyExc.runtimeError m) herr hfix]
    rfl

theorem c7_apply_fixes_capability_witness :
    (pyTruthyOpt (FixPlan.mk [] [ColumnFix.mk "users" "email" "TEXT"] [] [] [] none).error = false
      ∧ (FixPlan.mk [] [ColumnFix.mk "users" "email" "TEXT"] [] [] [] none).has_fixes = true)
    ∧ (apply_fixes (fun _ => .error PyExc.notImplemented)
          (FixPlan.mk [] [ColumnFix.mk "users" "email" "TEXT"] [] [] [] none)
          none none none false true
        = .error (.runtimeError ddlUnsupportedMsg)
      ∧ apply_fixes (fun _ => .error (PyExc.other "disk full"))
          (FixPlan.mk [] [ColumnFix.mk "users" "email" "TEXT"] [] [] [] none)
          none none none false true
        = .ok (FixResult.mk false none 0 0 0 (some "Failed to apply fixes: disk full"))
      ∧ apply_fixes (fun _ => .error (PyExc.runtimeError "disk full"))
          (FixPlan.mk [] [ColumnFix.mk "users" "email" "TEXT"] [] [] [] none)
          none none none false true
        = .error (.runtimeError "disk full")) :=
  ⟨⟨by decide, by decide⟩,
    c7_apply_fixes_capability (FixPlan.mk [] [ColumnFix.mk "users" "email" "TEXT"] [] [] [] none)
      none none "disk full" (by decide) (by decide)⟩

/-! ## Backup/restore engine (`backup/backup_restore.py`)

Row values are modelled by `Val` (JSON strings, integers and null); rows
are ordered key/value lists, as Python dicts are insertion-ordered.  The
database adapter is a record of response functions over an abstract state
`σ`; every adapter call the engine makes is appended to a trace so frame
properties are expressible.  File reads are modelled by passing the parsed
snapshot (`Except LoadError BackupFile`); the snapshot write of
`backup_database` is modelled by returning the document content. -/

/-- A JSON row value. -/
inductive Val where
  | vs (s : String)
  | vint (n : Int)
  | vnull
deriving DecidableEq, Repr

/-- Python truthiness of a row value (`if task.get("milestone_id"):`). -/
def Val.truthy : Val → Bool
  | .vs s => !s.isEmpty
  | .vint n => n != 0
  | .vnull => false

/-- A row: an insertion-ordered dict from column names to values. -/
abbrev Row := List (String × Val)

/-- `row[k]` as an option (`none` models a `KeyError` site). -/
def rowGet (r : Row) (k : String) : Option Val :=
  (r.find? (fun p => p.1 == k)).map Prod.snd

/-- `row[k] = v`: replace in place, or append a new key. -/
def rowSet : Row → String → Val → Row
  | [], k, v => [(k, v)]
  | (k0, v0) :: rest, k, v =>
    if k0 == k then (k0, v) :: rest else (k0, v0) :: rowSet rest k v

/-- `{k: v for k, v in row.items() if k != key}`. -/
def rowErase (r : Row) (key : String) : Row :=
  r.filter (fun p => !(p.1 == key))

/-- The abstract operation interface as the restore engine uses it.
`select` is a read (it returns rows and leaves the state unchanged);
`insert` returns the created row. -/
structure Adapter (σ : Type) where
  select : σ → String → String → Row → List Row
  insert : σ → String → Row → σ × Row
  update : σ → String → Row → Row → σ

/-- One recorded adapter call. -/
inductive DbCall where
  | sel (table columns : String) (filters : Row)
  | ins (table : String) (data : Row)
  | upd (table : String) (data : Row) (filters : Row)
deriving DecidableEq, Repr

/-- Whether a call writes to the destination. -/
def DbCall.isWrite : DbCall → Bool
  | .sel _ _ _ => false
  | .ins _ _ => true
  | .upd _ _ _ => true

/-- Per-table restore counters. -/
structure Counts where
  inserted : Nat := 0
  updated : Nat := 0
  skipped : Nat := 0
  failed : Nat := 0
deriving DecidableEq, Repr

/-- The summary dict `restore_database` returns. -/
structure RestoreSummary where
  projects : Counts := {}
  milestones : Counts := {}
  tasks : Counts := {}
  dry_run : Bool := false
deriving DecidableEq, Repr

/-- The running state of one restore pass: destination state, the two
identity maps, the summary and the adapter-call trace. -/
structure RState (σ : Type) where
  db : σ
  project_id_map : List (Val × Val) := []
  milestone_id_map : List (Val × Val) := []
  summary : RestoreSummary := {}
  calls : List DbCall := []

/-- Identity-map insertion (`m[old] = new`). -/
def mapInsert (m : List (Val × Val)) (k v : Val) : List (Val × Val) :=
  match m with
  | [] => [(k, v)]
  | (k0, v0) :: rest => if k0 == k then (k0, v) :: rest else (k0, v0) :: mapInsert rest k v

/-- Identity-map lookup (`old in m` / `m[old]`). -/
def mapLookup (m : List (Val × Val)) (k : Val) : Option Val :=
  (m.find? (fun p => p.1 == k)).map Prod.snd

def doSelect {σ : Type} (A : Adapter σ) (st : RState σ) (table columns : String)
    (filters : Row) : RState σ × List Row :=
  ({ st with calls := st.calls ++ [.sel table columns filters] },
    A.select st.db table columns filters)

def doInsert {σ : Type} (A : Adapter σ) (st : RState σ) (table : String)
    (data : Row) : RState σ × Row :=
  let p := A.insert st.db table data
  ({ st with db := p.1, calls := st.calls ++ [.ins table data] }, p.2)

def doUpdate {σ : Type} (A : Adapter σ) (st : RState σ) (table : String)
    (data : Row) (filters : Row) : RState σ :=
  { st with db := A.update st.db table data filters,
            calls := st.calls ++ [.upd table data filters] }

/-- The restore conflict modes. -/
inductive RMode where
  | skip
  | overwrite
  | fail
deriving DecidableEq, Repr

def bumpProjects {σ : Type} (st : RState σ) (f : Counts → Counts) : RState σ :=
  { st with summary := { st.summary with projects := f st.summary.projects } }

def bumpMilestones {σ : Type} (st : RState σ) (f : Counts → Counts) : RState σ :=
  { st with summary := { st.summary with milestones := f st.summary.milestones } }

def bumpTasks {σ : Type} (st : RState σ) (f : Counts → Counts) : RState σ :=
  { st with summary := { st.summary with tasks := f st.summary.tasks } }

def incInserted (c : Counts) : Counts := { c with inserted := c.inserted + 1 }

def incUpdated (c : Counts) : Counts := { c with updated := c.updated + 1 }

def incSkipped (c : Counts) : Counts := { c with skipped := c.skipped + 1 }

def incFailed (c : Counts) : Counts := { c with failed := c.failed + 1 }

/-- One iteration of the projects loop of `restore_database`
(backup_restore.py lines 217-269).  A `none` from `rowGet` models the
`KeyError` the Python line raises, and the `mode=fail` `ValueError` lands
in the same per-row `except` handler: both count the row as `failed` and
keep every mutation made before the raise. -/
def restore_project {σ : Type} (A : Adapter σ) (user_id : String) (mode : RMode)
    (dry_run : Bool) (st : RState σ) (project : Row) : RState σ :=
  match rowGet project "id" with
  | none => bumpProjects st incFailed
  | some old_project_id =>
    let project := rowSet project "user_id" (.vs user_id)
    match rowGet project "slug" with
    | none => bumpProjects st incFailed
    | some slugv =>
      let sr := doSelect A st "projects" "id" [("user_id", .vs user_id), ("slug", slugv)]
      let st := sr.1
      match sr.2 with
      | ex :: _ =>
        match rowGet ex "id" with
        | none => bumpProjects st incFailed
        | some exid =>
          let st := { st with project_id_map := mapInsert st.project_id_map old_project_id exid }
          match mode with
          | .fail => bumpProjects st incFailed
          | .skip => bumpProjects st incSkipped
          | .overwrite =>
            let st := if dry_run then st
              else doUpdate A st "projects" (rowErase project "id") [("id", exid)]
            bumpProjects st incUpdated
      | [] =>
        if dry_run then
          let st := { st with
            project_id_map := mapInsert st.project_id_map old_project_id old_project_id }
          bumpProjects st incInserted
        else
          let ir := doInsert A st "projects" project
          let st := ir.1
          match rowGet ir.2 "id" with
          | none => bumpProjects st incFailed
          | some new_project_id =>
            let st := { st with
              project_id_map := mapInsert st.project_id_map old_project_id new_project_id }
            bumpProjects st incInserted

/-- One iteration of the milestones loop (lines 272-336): remap the parent
project key through the project identity map, skipping the row when the
parent is absent. -/
def restore_milestone {σ : Type} (A : Adapter σ) (user_id : String) (mode : RMode)
    (dry_run : Bool) (st : RState σ) (milestone : Row) : RState σ :=
  match rowGet milestone "id" with
  | none => bumpMilestones st incFailed
  | some old_milestone_id =>
    let milestone := rowSet milestone "user_id" (.vs user_id)
    match rowGet milestone "project_id" with
    | none => bumpMilestones st incFailed
    | some old_project_id =>
      match mapLookup st.project_id_map old_project_id with
      | none => bumpMilestones st incSkipped
      | some new_pid =>
        let milestone := rowSet milestone "project_id" new_pid
        match rowGet milestone "slug" with
        | none => bumpMilestones st incFailed
        | some slugv =>
          let sr := doSelect A st "milestones" "id" [("project_id", new_pid), ("slug", slugv)]
          let st := sr.1
          match sr.2 with
          | ex :: _ =>
            match rowGet ex "id" with
            | none => bumpMilestones st incFailed
            | some exid =>
              let st := { st with
                milestone_id_map := mapInsert st.milestone_id_map old_milestone_id exid }
              match mode with
              | .fail => bumpMilestones st incFailed
              | .skip => bumpMilestones st incSkipped
              | .overwrite =>
                let st := if dry_run then st
                  else doUpdate A st "milestones" (rowErase milestone "id") [("id", exid)]
                bumpMilestones st incUpdated
          | [] =>
            if dry_run then
              let st := { st with
                milestone_id_map := mapInsert st.milestone_id_map old_milestone_id old_milestone_id }
              bumpMilestones st incInserted
            else
              let ir := doInsert A st "milestones" milestone
              let st := ir.1
              match rowGet ir.2 "id" with
              | none => bumpMilestones st incFailed
              | some new_milestone_id =>
                let st := { st with
                  milestone_id_map := mapInsert st.milestone_id_map old_milestone_id new_milestone_id }
                bumpMilestones st incInserted

/-- The conflict-resolution tail of the tasks loop (lines 376-407): the
existence check and the mode branch.  Tasks build no identity map. -/
def restore_task_conflict {σ : Type} (A : Adapter σ) (user_id : String) (mode : RMode)
    (dry_run : Bool) (new_pid : Val) (task : Row) (st : RState σ) : RState σ :=
  match rowGet task "slug" with
  | none => bumpTasks st incFailed
  | some slugv =>
    let sr := doSelect A st "tasks" "id"
      [("user_id", .vs user_id), ("project_id", new_pid), ("slug", slugv)]
    let st := sr.1
    match sr.2 with
    | ex :: _ =>
      match mode with
      | .fail => bumpTasks st incFailed
      | .skip => bumpTasks st incSkipped
      | .overwrite =>
        if dry_run then bumpTasks st incUpdated
        else
          match rowGet ex "id" with
          | none => bumpTasks st incFailed
          | some exid =>
            bumpTasks (doUpdate A st "tasks" (rowErase task "id") [("id", exid)]) incUpdated
    | [] =>
      let st := if dry_run then st else (doInsert A st "tasks" task).1
      bumpTasks st incInserted

/-- One iteration of the tasks loop (lines 339-411): remap the project key
(skip when absent), null or remap an optional milestone key, verify the
parent project exists (only outside dry runs), then resolve conflicts. -/
def restore_task {σ : Type} (A : Adapter σ) (user_id : String) (mode : RMode)
    (dry_run : Bool) (st : RState σ) (task : Row) : RState σ :=
  let task := rowSet task "user_id" (.vs user_id)
  match rowGet task "project_id" with
  | none => bumpTasks st incFailed
  | some old_project_id =>
    match mapLookup st.project_id_map old_project_id with
    | none => bumpTasks st incSkipped
    | some new_pid =>
      let task := rowSet task "project_id" new_pid
      let task :=
        match rowGet task "milestone_id" with
        | some mv =>
          if mv.truthy then
            match mapLookup st.milestone_id_map mv with
            | some newm => rowSet task "milestone_id" newm
            | none => rowSet task "milestone_id" .vnull
          else task
        | none => task
      if dry_run then restore_task_conflict A user_id mode true new_pid task st
      else
        let sr := doSelect A st "projects" "id" [("id", new_pid)]
        match sr.2 with
        | [] => bumpTasks sr.1 incSkipped
        | _ :: _ => restore_task_conflict A user_id mode false new_pid task sr.1

/-- The parsed snapshot document: its four top-level keys, each `none` when
the key is absent from the JSON object. -/
structure BackupFile where
  metadata : Option Row := none
  projects : Option (List Row) := none
  milestones : Option (List Row) := none
  tasks : Option (List Row) := none
deriving DecidableEq, Repr

/-- Why loading the snapshot file can fail before any content check. -/
inductive LoadError where
  | notFound
  | badJson (msg : String)
deriving DecidableEq, Repr

/-- The report `validate_backup` returns. -/
structure ValidationReport where
  valid : Bool
  errors : List String
  warnings : List String
deriving DecidableEq, Repr

/-- Python `f"{value}"` of `metadata.get(...)` / `row.get(...)`. -/
def pyStrOptVal : Option Val → String
  | none => "None"
  | some (.vs s) => s
  | some (.vint n) => toString n
  | some .vnull => "None"

/-- `row.get("slug", "unknown")` rendered into a message. -/
def slugOrUnknown (r : Row) : String :=
  match rowGet r "slug" with
  | none => "unknown"
  | some v => pyStrOptVal (some v)

/-- The projects loop of `validate_backup` (lines 486-496): per-project
errors in loop order, plus the collected non-empty primary keys. -/
def projectChecks : List Row → List String × List Val
  | [] => ([], [])
  | p :: rest =>
    let tail := projectChecks rest
    let idErrs :=
      match rowGet p "id" with
      | none => ["Project missing 'id' field: " ++ slugOrUnknown p]
      | some v =>
        if !v.truthy then ["Project has empty 'id': " ++ slugOrUnknown p] else []
    let slugErrs :=
      match rowGet p "slug" with
      | none => ["Project missing 'slug' field"]
      | some _ => []
    let ids :=
      match rowGet p "id" with
      | some v => if v.truthy then [v] else []
      | none => []
    (idErrs ++ slugErrs ++ tail.1, ids ++ tail.2)

/-- The tasks loop of `validate_backup` (lines 499-503): reference errors
and orphan warnings in loop order. -/
def taskChecks (project_ids : List Val) : List Row → List String × List String
  | [] => ([], [])
  | t :: rest =>
    let tail := taskChecks project_ids rest
    match rowGet t "project_id" with
    | none => (("Task missing 'project_id': " ++ slugOrUnknown t) :: tail.1, tail.2)
    | some v =>
      if v ∈ project_ids then tail
      else (tail.1,
        ("Orphaned task " ++ pyStrOptVal (rowGet t "slug") ++ ": project_id not in backup")
          :: tail.2)

/-- `validate_backup` from `backup/backup_restore.py` (lines 435-506): note
that the version check only *warns*, and that the version it expects is
`"1.0"`. -/
def validate_backup (backup_path : String) (loaded : Except LoadError BackupFile) :
    ValidationReport :=
  match loaded with
  | .error .notFound =>
    ⟨false, ["Backup file not found: " ++ backup_path], []⟩
  | .error (.badJson e) =>
    ⟨false, ["Invalid JSON: " ++ e], []⟩
  | .ok backup_data =>
    let keyErrors :=
      (if backup_data.metadata.isNone then ["Missing required key: metadata"] else [])
      ++ (if backup_data.projects.isNone then ["Missing required key: projects"] else [])
      ++ (if backup_data.tasks.isNone then ["Missing required key: tasks"] else [])
    if !keyErrors.isEmpty then ⟨false, keyErrors, []⟩
    else
      let metadata := backup_data.metadata.getD []
      let projects := backup_data.projects.getD []
      let tasks := backup_data.tasks.getD []
      let metaWarnings :=
        ["created_at", "db_provider", "user_id", "backup_type", "version"].filterMap
          (fun k =>
            if (rowGet metadata k).isNone then some ("Missing metadata field: " ++ k)
            else none)
      let versionWarnings :=
        if rowGet metadata "version" ≠ some (.vs "1.0") then
          ["Backup version " ++ pyStrOptVal (rowGet metadata "version")
            ++ " may not be compatible (expected 1.0)"]
        else []
      let pc := projectChecks projects
      let tc := taskChecks pc.2 tasks
      let errors := pc.1 ++ tc.1
      let warnings := metaWarnings ++ versionWarnings ++ tc.2
      ⟨errors.isEmpty, errors, warnings⟩

/-- Python truthiness of the optional `project_slugs` list. -/
def pyTruthyList : Option (List String) → Bool
  | some (_ :: _) => true
  | _ => false

/-- `[p["id"] for p in projects]`: a missing key is a raised `KeyError`. -/
def collectIds : List Row → Except String (List Val)
  | [] => .ok []
  | p :: rest =>
    match rowGet p "id" with
    | none => .error "KeyError: id"
    | some v =>
      match collectIds rest with
      | .error e => .error e
      | .ok ids => .ok (v :: ids)

/-- `[m for m in rows if m["project_id"] in project_ids]`. -/
def filterByProjectIds (project_ids : List Val) : List Row → Except String (List Row)
  | [] => .ok []
  | m :: rest =>
    match rowGet m "project_id" with
    | none => .error "KeyError: project_id"
    | some v =>
      match filterByProjectIds project_ids rest with
      | .error e => .error e
      | .ok kept => .ok (if v ∈ project_ids then m :: kept else kept)

/-- The selective-backup projects loop of `backup_database` (lines 78-87). -/
def selectProjects {σ : Type} (A : Adapter σ) (db : σ) (user_id : String) :
    List String → List Row
  | [] => []
  | slug :: rest =>
    let result := A.select db "projects" "*" [("user_id", .vs user_id), ("slug", .vs slug)]
    (match result with
     | r :: _ => [r]
     | [] => []) ++ selectProjects A db user_id rest

/-- `backup_database` from `backup/backup_restore.py` (lines 27-138), as the
snapshot document it writes (`created_at` stands for `datetime.now()`, the
path handling and JSON dump are file I/O).  Records `version = "1.1"`. -/
def backup_database {σ : Type} (A : Adapter σ) (db : σ) (user_id : String)
    (db_provider : String) (created_at : String)
    (project_slugs : Option (List String)) : Except String BackupFile :=
  let projects :=
    if pyTruthyList project_slugs then selectProjects A db user_id (project_slugs.getD [])
    else A.select db "projects" "*" [("user_id", .vs user_id)]
  match collectIds projects with
  | .error e => .error e
  | .ok project_ids =>
    let milestonesE :=
      if project_ids.isEmpty then Except.ok ([] : List Row)
      else filterByProjectIds project_ids
        (A.select db "milestones" "*" [("user_id", .vs user_id)])
    match milestonesE with
    | .error e => .error e
    | .ok milestones =>
      let tasksE :=
        if project_ids.isEmpty then Except.ok ([] : List Row)
        else filterByProjectIds project_ids
          (A.select db "tasks" "*" [("user_id", .vs user_id)])
      match tasksE with
      | .error e => .error e
      | .ok tasks =>
        .ok ⟨some
          [("created_at", .vs created_at),
           ("db_provider", .vs db_provider),
           ("user_id", .vs user_id),
           ("backup_type", .vs (if pyTruthyList project_slugs then "selective" else "full")),
           ("version", .vs "1.1"),
           ("project_count", .vint projects.length),
           ("milestone_count", .vint milestones.length),
           ("task_count", .vint tasks.length)],
          some projects, some milestones, some tasks⟩

/-- `restore_database` from `backup/backup_restore.py` (lines 141-432).
`loaded` models reading and parsing the snapshot file; the `Except.error`
results model the exceptions the function lets escape (load failures, the
validation `ValueError`, and `KeyError`s on metadata fields it reads
unconditionally).  Returns the summary and the adapter-call trace. -/
def restore_database {σ : Type} (A : Adapter σ) (db : σ) (user_id : String)
    (backup_path : String) (loaded : Except LoadError BackupFile) (mode : RMode)
    (dry_run : Bool) : Except String (RestoreSummary × List DbCall) :=
  match loaded with
  | .error .notFound => .error "FileNotFoundError"
  | .error (.badJson e) => .error ("json.JSONDecodeError: " ++ e)
  | .ok backup_data =>
    let validation := validate_backup backup_path loaded
    if !validation.errors.isEmpty then .error "Invalid backup file"
    else
      match rowGet (backup_data.metadata.getD []) "user_id" with
      | none => .error "KeyError: user_id"
      | some _ =>
        if !dry_run ∧ (rowGet (backup_data.metadata.getD []) "db_provider").isNone then
          .error "KeyError: db_provider"
        else
          match backup_data.projects with
          | none => .error "KeyError: projects"
          | some projects =>
            let st0 : RState σ := { db := db, summary := { dry_run := dry_run } }
            let st1 := projects.foldl (restore_project A user_id mode dry_run) st0
            let st2 := (backup_data.milestones.getD []).foldl
              (restore_milestone A user_id mode dry_run) st1
            let st3 := (backup_data.tasks.getD []).foldl
              (restore_task A user_id mode dry_run) st2
            .ok (st3.summary, st3.calls)

/-- A destination in which the backed-up project already exists (its
existence check returns a row with id `pX`). -/
def failModeAdapter : Adapter Unit := {
  select := fun _ table _ filters =>
    if table == "projects" && filters == [("user_id", .vs "u"), ("slug", .vs "p")] then
      [[("id", .vs "pX")]]
    else if table == "projects" && filters == [("id", .vs "pX")] then
      [[("id", .vs "pX")]]
    else [],
  insert := fun s _ data => (s, data),
  update := fun s _ _ _ => s }

/-- A well-formed snapshot with one project and one task referencing it. -/
def failModeBackup : BackupFile := {
  metadata := some [("created_at", .vs "t"), ("db_provider", .vs "pg"),
    ("user_id", .vs "u"), ("backup_type", .vs "full"), ("version", .vs "1.0")],
  projects := some [[("id", .vs "p1"), ("slug", .vs "p"), ("user_id", .vs "u")]],
  milestones := some [],
  tasks := some [[("id", .vs "t1"), ("project_id", .vs "p1"), ("slug", .vs "t"),
    ("user_id", .vs "u")]] }

/-- C1 (code bug): with `mode="fail"` and a colliding project, the
`ValueError` raised at line 237 is caught by the per-row handler at line
267, so the restore is *not* aborted: the project is merely counted
`failed`, and the later tasks table is still processed — its row is
existence-checked and inserted. -/
theorem c1_fail_mode_does_not_abort :
    restore_database failModeAdapter () "u" "/tmp/b.json" (.ok failModeBackup) .fail false
      = .ok (⟨⟨0, 0, 0, 1⟩, ⟨0, 0, 0, 0⟩, ⟨1, 0, 0, 0⟩, false⟩,
        [.sel "projects" "id" [("user_id", .vs "u"), ("slug", .vs "p")],
         .sel "projects" "id" [("id", .vs "pX")],
         .sel "tasks" "id" [("user_id", .vs "u"), ("project_id", .vs "pX"), ("slug", .vs "t")],
         .ins "tasks" [("id", .vs "t1"), ("project_id", .vs "pX"), ("slug", .vs "t"),
           ("user_id", .vs "u")]]) := rfl

/-- The `failModeBackup` snapshot with the version the engine itself
writes. -/
def version11Backup : BackupFile := { failModeBackup with
  metadata := some [("created_at", .vs "t"), ("db_provider", .vs "pg"),
    ("user_id", .vs "u"), ("backup_type", .vs "full"), ("version", .vs "1.1")] }

/-- An empty destination. -/
def emptyAdapter : Adapter Unit := {
  select := fun _ _ _ _ => [],
  insert := fun s _ data => (s, data),
  update := fun s _ _ _ => s }

/-- C2 (code bug): the validator's version check expects `"1.0"` and only
warns.  A well-formed `"1.0"` snapshot validates with no version entry in
`errors` (nor even a warning); the `"1.1"` snapshot `backup_database`
itself writes draws a may-not-be-compatible *warning*; and
`backup_database` does record `version = "1.1"`.  The validator thus
contradicts both the claim and the engine's own writer and tests. -/
theorem c2_version_gate_is_warning_only :
    validate_backup "/tmp/b.json" (.ok failModeBackup)
        = ⟨true, [], []⟩
    ∧ validate_backup "/tmp/b.json" (.ok version11Backup)
        = ⟨true, [], ["Backup version 1.1 may not be compatible (expected 1.0)"]⟩
    ∧ (backup_database emptyAdapter () "u" "pg" "2026-01-01T00:00:00" none).map
        (fun f => rowGet (f.metadata.getD []) "version")
        = .ok (some (.vs "1.1")) :=
  ⟨rfl, rfl, rfl⟩

/-- C6: when a row's existence check finds a matching destination row and
`mode="skip"`, the step leaves the destination untouched (the database
state is unchanged and the only recorded call is the existence-check
select), increments the table's `skipped` count, and still records the
existing destination primary key in the table's identity map under the
row's original key — for the projects loop and the milestones loop alike. -/
theorem c6_skip_mode_records_identity {σ : Type} (A : Adapter σ) (user_id : String)
    (dry_run : Bool) (st st' : RState σ) (project milestone : Row)
    (old_id slugv exid oldm mslug mexid old_pid new_pid : Val)
    (ex mex : Row) (rest mrest : List Row) :
    (rowGet project "id" = some old_id →
      rowGet (rowSet project "user_id" (.vs user_id)) "slug" = some slugv →
      A.select st.db "projects" "id" [("user_id", .vs user_id), ("slug", slugv)] = ex :: rest →
      rowGet ex "id" = some exid →
      restore_project A user_id .skip dry_run st project
        = { st with
            project_id_map := mapInsert st.project_id_map old_id exid,
            summary := { st.summary with projects := incSkipped st.summary.projects },
            calls := st.calls
              ++ [.sel "projects" "id" [("user_id", .vs user_id), ("slug", slugv)]] })
    ∧ (rowGet milestone "id" = some oldm →
      rowGet (rowSet milestone "user_id" (.vs user_id)) "project_id" = some old_pid →
      mapLookup st'.project_id_map old_pid = some new_pid →
      rowGet (rowSet (rowSet milestone "user_id" (.vs user_id)) "project_id" new_pid) "slug"
        = some mslug →
      A.select st'.db "milestones" "id" [("project_id", new_pid), ("slug", mslug)]
        = mex :: mrest →
      rowGet mex "id" = some mexid →
      restore_milestone A user_id .skip dry_run st' milestone
        = { st' with
            milestone_id_map := mapInsert st'.milestone_id_map oldm mexid,
            summary := { st'.summary with milestones := incSkipped st'.summary.milestones },
            calls := st'.calls
              ++ [.sel "milestones" "id" [("project_id", new_pid), ("slug", mslug)]] }) := by
  constructor
  · intro hid hslug hsel hexid
    simp only [restore_project, hid, doSelect, hslug, hsel, hexid]
    rfl
  · intro hid hpid hmap hslug hsel hexid
    simp only [restore_milestone, hid, doSelect, hpid, hmap, hslug, hsel, hexid]
    rfl

theorem c6_skip_mode_records_identity_witness :
    (rowGet [("id", Val.vs "p1"), ("slug", Val.vs "p")] "id" = some (Val.vs "p1")
      ∧ rowGet (rowSet [("id", Val.vs "p1"), ("slug", Val.vs "p")] "user_id" (Val.vs "u")) "slug"
          = some (Val.vs "p")
      ∧ (failModeAdapter.select () "projects" "id"
          [("user_id", Val.vs "u"), ("slug", Val.vs "p")]) = [("id", Val.vs "pX")] :: []
      ∧ rowGet [("id", Val.vs "pX")] "id" = some (Val.vs "pX"))
    ∧ restore_project failModeAdapter "u" .skip false
        ⟨(), [], [], {}, []⟩ [("id", Val.vs "p1"), ("slug", Val.vs "p")]
      = { (⟨(), [], [], {}, []⟩ : RState Unit) with
          project_id_map := mapInsert [] (Val.vs "p1") (Val.vs "pX"),
          summary := { ({} : RestoreSummary) with
            projects := incSkipped ({} : RestoreSummary).projects },
          calls := [] ++ [.sel "projects" "id" [("user_id", Val.vs "u"), ("slug", Val.vs "p")]] } :=
  ⟨⟨by decide, by decide, by decide, by decide⟩,
    (c6_skip_mode_records_identity failModeAdapter "u" false
      ⟨(), [], [], {}, []⟩ ⟨(), [], [], {}, []⟩
      [("id", Val.vs "p1"), ("slug", Val.vs "p")] []
      (Val.vs "p1") (Val.vs "p") (Val.vs "pX")
      (Val.vs "m1") (Val.vs "m") (Val.vs "mX") (Val.vs "p1") (Val.vs "pX")
      [("id", Val.vs "pX")] [] [] []).1
      (by decide) (by decide) (by decide) (by decide)⟩

/-- The adapter calls of a restore outcome (none when it raised). -/
def callsOf : Except String (RestoreSummary × List DbCall) → List DbCall
  | .error _ => []
  | .ok p => p.2

theorem restore_project_dry_writes {σ : Type} (A : Adapter σ) (u : String) (mode : RMode)
    (st : RState σ) (p : Row) :
    ((restore_project A u mode true st p).calls).filter DbCall.isWrite
      = st.calls.filter DbCall.isWrite := by
  unfold restore_project
  cases hid : rowGet p "id" with
  | none => rfl
  | some oid =>
    dsimp only
    cases hslug : rowGet (rowSet p "user_id" (Val.vs u)) "slug" with
    | none => rfl
    | some sv =>
      dsimp only [doSelect]
      cases hsel : A.select st.db "projects" "id" [("user_id", Val.vs u), ("slug", sv)] with
      | nil =>
        simp [bumpProjects, List.filter_append, DbCall.isWrite]
      | cons ex tail =>
        cases hexid : rowGet ex "id" with
        | none => simp [hexid, bumpProjects, List.filter_append, DbCall.isWrite]
        | some exid =>
          cases mode <;> simp [hexid, bumpProjects, List.filter_append, DbCall.isWrite]

theorem restore_milestone_dry_writes {σ : Type} (A : Adapter σ) (u : String) (mode : RMode)
    (st : RState σ) (m : Row) :
    ((restore_milestone A u mode true st m).calls).filter DbCall.isWrite
      = st.calls.filter DbCall.isWrite := by
  unfold restore_milestone
  cases hid : rowGet m "id" with
  | none => rfl
  | some oid =>
    dsimp only
    cases hpid : rowGet (rowSet m "user_id" (Val.vs u)) "project_id" with
    | none => rfl
    | some opid =>
      dsimp only
      cases hmap : mapLookup st.project_id_map opid with
      | none => rfl
      | some npid =>
        dsimp only
        cases hslug : rowGet (rowSet (rowSet m "user_id" (Val.vs u)) "project_id" npid) "slug" with
        | none => rfl
        | some sv =>
          dsimp only [doSelect]
          cases hsel : A.select st.db "milestones" "id" [("project_id", npid), ("slug", sv)] with
          | nil =>
            simp [bumpMilestones, List.filter_append, DbCall.isWrite]
          | cons ex tail =>
            cases hexid : rowGet ex "id" with
            | none => simp [hexid, bumpMilestones, List.filter_append, DbCall.isWrite]
            | some exid =>
              cases mode <;> simp [hexid, bumpMilestones, List.filter_append, DbCall.isWrite]

theorem restore_task_conflict_dry_writes {σ : Type} (A : Adapter σ) (u : String)
    (mode : RMode) (npid : Val) (t : Row) (st : RState σ) :
    ((restore_task_conflict A u mode true npid t st).calls).filter DbCall.isWrite
      = st.calls.filter DbCall.isWrite := by
  unfold restore_task_conflict
  cases hslug : rowGet t "slug" with
  | none => rfl
  | some sv =>
    dsimp only [doSelect]
    cases hsel : A.select st.db "tasks" "id"
        [("user_id", .vs u), ("project_id", npid), ("slug", sv)] with
    | nil => simp [bumpTasks, List.filter_append, DbCall.isWrite]
    | cons ex tail =>
      cases mode <;> simp [bumpTasks, List.filter_append, DbCall.isWrite]

theorem restore_task_dry_writes {σ : Type} (A : Adapter σ) (u : String) (mode : RMode)
    (st : RState σ) (t : Row) :
    ((restore_task A u mode true st t).calls).filter DbCall.isWrite
      = st.calls.filter DbCall.isWrite := by
  unfold restore_task
  dsimp only
  cases hpid : rowGet (rowSet t "user_id" (Val.vs u)) "project_id" with
  | none => rfl
  | some opid =>
    dsimp only
    cases hmap : mapLookup st.project_id_map opid with
    | none => rfl
    | some npid =>
      dsimp only
      rw [if_pos rfl]
      exact restore_task_conflict_dry_writes A u mode npid _ st

theorem foldl_dry_writes {σ : Type} (f : RState σ → Row → RState σ)
    (hf : ∀ st r, ((f st r).calls).filter DbCall.isWrite = st.calls.filter DbCall.isWrite) :
    ∀ (rows : List Row) (st : RState σ),
      ((rows.foldl f st).calls).filter DbCall.isWrite = st.calls.filter DbCall.isWrite := by
  intro rows
  induction rows with
  | nil => intro st; rfl
  | cons r rest ih =>
    intro st
    rw [List.foldl_cons, ih (f st r), hf st r]

/-- C10 amended, frame half: a dry-run restore never performs an `insert`,
`update` or `delete` — every adapter call in its trace is a read. -/
theorem c10_dry_run_reads_only {σ : Type} (A : Adapter σ) (db : σ) (user_id : String)
    (backup_path : String) (loaded : Except LoadError BackupFile) (mode : RMode) :
    (callsOf (restore_database A db user_id backup_path loaded mode true)).filter
      DbCall.isWrite = [] := by
  cases loaded with
  | error e => cases e <;> rfl
  | ok bd =>
    unfold restore_database
    cases hval : (validate_backup backup_path (.ok bd)).errors.isEmpty with
    | false => simp [hval, callsOf]
    | true =>
      simp only [hval, Bool.not_true, Bool.false_eq_true, if_false]
      cases rowGet (bd.metadata.getD []) "user_id" with
      | none => rfl
      | some uv =>
        simp only
        rw [if_neg (by simp)]
        cases bd.projects with
        | none => rfl
        | some projects =>
          simp only [callsOf]
          rw [foldl_dry_writes _ (restore_task_dry_writes A user_id mode),
            foldl_dry_writes _ (restore_milestone_dry_writes A user_id mode),
            foldl_dry_writes _ (restore_project_dry_writes A user_id mode)]
          rfl

/-- A destination that already holds a milestone whose `project_id` equals
the snapshot's *original* project key, while the project itself is new (its
insert assigns a fresh key). -/
def dryDiffAdapter : Adapter Unit := {
  select := fun _ table _ filters =>
    if table == "milestones" && filters == [("project_id", .vs "p1"), ("slug", .vs "m")] then
      [[("id", .vs "w")]]
    else [],
  insert := fun s table data => (s, rowSet data "id" (.vs ("new-" ++ table))),
  update := fun s _ _ _ => s }

/-- A snapshot with one project and one milestone under it. -/
def dryDiffBackup : BackupFile := {
  metadata := some [("created_at", .vs "t"), ("db_provider", .vs "pg"),
    ("user_id", .vs "u"), ("backup_type", .vs "full"), ("version", .vs "1.0")],
  projects := some [[("id", .vs "p1"), ("slug", .vs "p"), ("user_id", .vs "u")]],
  milestones := some [[("id", .vs "m1"), ("project_id", .vs "p1"), ("slug", .vs "m"),
    ("user_id", .vs "u")]],
  tasks := some [] }

/-- C10 counterexample: on the same snapshot and destination, the dry run
counts the milestone `skipped` while the real run inserts it — the dry-run
identity map maps the project key to itself, which changes the milestone's
existence check. -/
theorem c10_counterexample :
    (restore_database dryDiffAdapter () "u" "/tmp/b.json" (.ok dryDiffBackup) .skip true).map
        (fun p => p.1.milestones) = .ok ⟨0, 0, 1, 0⟩
    ∧ (restore_database dryDiffAdapter () "u" "/tmp/b.json" (.ok dryDiffBackup) .skip false).map
        (fun p => p.1.milestones) = .ok ⟨1, 0, 0, 0⟩ :=
  ⟨rfl, rfl⟩

/-! ## Sync orchestrator (`schema/sync.py`, `backup/models.py`)

Profiles come from `db.toml`; the environment is modelled as the set of
profile names plus, per resolvable profile, an adapter and its state.  The
two sync paths (`_sync_via_backup`, `_sync_direct`) are passed in as
functions returning the updated result together with the write trace they
would produce — the gate theorems hold for every such pair. -/

/-- `ForeignKey` from `backup/models.py`. -/
structure ForeignKey where
  table : String
  field : String
deriving DecidableEq, Repr

/-- `TableDef` from `backup/models.py`. -/
structure TableDef where
  name : String
  pk : String := "id"
  slug_field : String := "slug"
  user_field : String := "user_id"
  parent : Option ForeignKey := none
  optional_refs : List ForeignKey := []
deriving DecidableEq, Repr

/-- `BackupSchema` from `backup/models.py`. -/
structure BackupSchema where
  tables : List TableDef
deriving DecidableEq, Repr

/-- `SyncResult` from `schema/sync.py`. -/
structure SyncResult where
  success : Bool := false
  source_profile : String := ""
  dest_profile : String := ""
  source_counts : List (String × Val) := []
  dest_counts : List (String × Val) := []
  sync_plan : List (String × Nat × Nat) := []
  synced_count : Nat := 0
  skipped_count : Nat := 0
  errors : List String := []
deriving DecidableEq, Repr

/-- The profile environment: `db.toml`'s profile names and, for each
resolvable profile, its adapter and database state. -/
structure SyncEnv (σ : Type) where
  profileNames : List String
  profiles : String → Option (Adapter σ × σ)

/-- `str(KeyError(...))` for a missing profile (Python reprs the message in
quotes). -/
def profileKeyError (name : String) (available : List String) : String :=
  "\"Profile '" ++ name ++ "' not found in db.toml. Available: "
    ++ String.intercalate ", " available ++ "\""

/-- `_get_data_counts` from `schema/sync.py`: per-table count rows; a row
without a `cnt` column is the raised `KeyError`. -/
def get_data_counts {σ : Type} (A : Adapter σ) (db : σ) (user_id : String)
    (user_field : String) : List String → Except String (List (String × Val))
  | [] => .ok []
  | t :: rest =>
    let rows := A.select db t "count(*) as cnt" [(user_field, .vs user_id)]
    let cntE : Except String Val :=
      match rows with
      | [] => .ok (.vint 0)
      | r :: _ =>
        match rowGet r "cnt" with
        | none => .error "'cnt'"
        | some v => .ok v
    match cntE with
    | .error e => .error e
    | .ok v =>
      match get_data_counts A db user_id user_field rest with
      | .error e => .error e
      | .ok cs => .ok ((t, v) :: cs)

/-- `{r[slug_field] for r in rows}`: collect values, `KeyError` on a
missing key. -/
def collectKeyVals (k : String) : List Row → Except String (List Val)
  | [] => .ok []
  | r :: rest =>
    match rowGet r k with
    | none => .error ("'" ++ k ++ "'")
    | some v =>
      match collectKeyVals k rest with
      | .error e => .error e
      | .ok vs => .ok (v :: vs)

/-- Set-of-values semantics: first occurrences, duplicates dropped. -/
def dedupAux (seen : List Val) : List Val → List Val
  | [] => []
  | v :: rest => if v ∈ seen then dedupAux seen rest else v :: dedupAux (v :: seen) rest

def dedupVals (l : List Val) : List Val := dedupAux [] l

/-- `_get_slugs` from `schema/sync.py`. -/
def get_slugs {σ : Type} (A : Adapter σ) (db : σ) (user_id : String)
    (slug_field user_field : String) :
    List String → Except String (List (String × List Val))
  | [] => .ok []
  | t :: rest =>
    let rows := A.select db t slug_field [(user_field, .vs user_id)]
    match collectKeyVals slug_field rows with
    | .error e => .error e
    | .ok vs =>
      match get_slugs A db user_id slug_field user_field rest with
      | .error e => .error e
      | .ok ss => .ok ((t, dedupVals vs) :: ss)

/-- `dict.get(table, set())` on the collected slug dicts. -/
def slugsGet (d : List (String × List Val)) (t : String) : List Val :=
  ((d.find? (fun p => p.1 == t)).map Prod.snd).getD []

/-- `compare_profiles` from `schema/sync.py` (lines 198-305): pure
comparison, no writes; every failure is returned as an `errors` entry on
the result. -/
def compare_profiles {σ : Type} (env : SyncEnv σ) (source_profile dest_profile : String)
    (tables : List String) (user_id : String) (user_field slug_field : String) :
    SyncResult :=
  let result : SyncResult :=
    { source_profile := source_profile, dest_profile := dest_profile }
  match env.profiles source_profile with
  | none =>
    { result with errors := result.errors
        ++ ["Failed to connect to source profile '" ++ source_profile ++ "': "
            ++ profileKeyError source_profile env.profileNames] }
  | some src =>
    match env.profiles dest_profile with
    | none =>
      { result with errors := result.errors
          ++ ["Failed to connect to destination profile '" ++ dest_profile ++ "': "
              ++ profileKeyError dest_profile env.profileNames] }
    | some dst =>
      match get_data_counts src.1 src.2 user_id user_field tables with
      | .error e =>
        { result with errors := result.errors ++ ["Failed to compare profiles: " ++ e] }
      | .ok sc =>
        let result := { result with source_counts := sc }
        match get_data_counts dst.1 dst.2 user_id user_field tables with
        | .error e =>
          { result with errors := result.errors ++ ["Failed to compare profiles: " ++ e] }
        | .ok dc =>
          let result := { result with dest_counts := dc }
          match get_slugs src.1 src.2 user_id slug_field user_field tables with
          | .error e =>
            { result with errors := result.errors ++ ["Failed to compare profiles: " ++ e] }
          | .ok ss =>
            match get_slugs dst.1 dst.2 user_id slug_field user_field tables with
            | .error e =>
              { result with errors := result.errors ++ ["Failed to compare profiles: " ++ e] }
            | .ok ds =>
              let plan := tables.map (fun t =>
                let src_set := slugsGet ss t
                let dst_set := slugsGet ds t
                (t, (src_set.filter (fun v => !(dst_set.contains v))).length,
                  (src_set.filter (fun v => dst_set.contains v)).length))
              { result with sync_plan := plan, success := true }

/-- `sync_data` from `schema/sync.py` (lines 308-398).  The two sync paths
are parameters returning the updated result and their write trace; the
comparison and the gates themselves perform no writes, so the trace of a
gated call is empty. -/
def sync_data {σ : Type} (env : SyncEnv σ) (source_profile dest_profile : String)
    (tables : List String) (user_id : String) (user_field slug_field : String)
    (schema : Option BackupSchema)
    (sync_via_backup : BackupSchema → SyncResult → SyncResult × List DbCall)
    (sync_direct : SyncResult → SyncResult × List DbCall)
    (dry_run confirm : Bool) : SyncResult × List DbCall :=
  let result := compare_profiles env source_profile dest_profile tables
    user_id user_field slug_field
  if !result.success then (result, [])
  else if dry_run then (result, [])
  else if !confirm then
    ({ result with
        success := false
        errors := result.errors ++ ["Sync requires confirm=True to actually perform changes"] },
      [])
  else
    match schema with
    | some s => sync_via_backup s result
    | none => sync_direct result

/-- An environment with no resolvable profiles. -/
def emptySyncEnv : SyncEnv Unit := { profileNames := [], profiles := fun _ => none }

/-- C8 counterexample: with an unknown source profile, an unconfirmed
non-dry-run call returns the connection failure only — no
confirmation-required error is attached, against the claim's "every call"
quantification. -/
theorem c8_counterexample :
    (sync_data emptySyncEnv "rds" "local" ["authors"] "u1" "user_id" "slug" none
        (fun _ r => (r, [])) (fun r => (r, [])) false false).1.success = false
    ∧ (sync_data emptySyncEnv "rds" "local" ["authors"] "u1" "user_id" "slug" none
        (fun _ r => (r, [])) (fun r => (r, [])) false false).1.errors
      = ["Failed to connect to source profile 'rds': \"Profile 'rds' not found in db.toml. Available: \""]
    ∧ "Sync requires confirm=True to actually perform changes"
        ∉ (sync_data emptySyncEnv "rds" "local" ["authors"] "u1" "user_id" "slug" none
            (fun _ r => (r, [])) (fun r => (r, [])) false false).1.errors := by
  exact ⟨rfl, rfl, by decide⟩

/-- C8 amended: a dry-run call returns exactly the profile comparison with
no writes, whatever the sync paths would do; and when the comparison
succeeds, an unconfirmed non-dry-run call returns the comparison marked
unsuccessful with the explicit confirmation-required error appended, again
with no writes. -/
theorem c8_sync_gates {σ : Type} (env : SyncEnv σ) (source_profile dest_profile : String)
    (tables : List String) (user_id user_field slug_field : String)
    (schema : Option BackupSchema)
    (sync_via_backup : BackupSchema → SyncResult → SyncResult × List DbCall)
    (sync_direct : SyncResult → SyncResult × List DbCall) (confirm : Bool) :
    (sync_data env source_profile dest_profile tables user_id user_field slug_field
        schema sync_via_backup sync_direct true confirm
      = (compare_profiles env source_profile dest_profile tables user_id user_field slug_field,
        []))
    ∧ ((compare_profiles env source_profile dest_profile tables
          user_id user_field slug_field).success = true →
      sync_data env source_profile dest_profile tables user_id user_field slug_field
          schema sync_via_backup sync_direct false false
        = ({ compare_profiles env source_profile dest_profile tables
              user_id user_field slug_field with
             success := false,
             errors := (compare_profiles env source_profile dest_profile tables
               user_id user_field slug_field).errors
               ++ ["Sync requires confirm=True to actually perform changes"] }, [])) := by
  constructor
  · unfold sync_data
    cases hs : (compare_profiles env source_profile dest_profile tables
        user_id user_field slug_field).success with
    | false => simp [hs]
    | true => simp [hs]
  · intro hs
    unfold sync_data
    simp [hs]

/-- An environment whose two profiles resolve to an empty destination. -/
def twoProfileEnv : SyncEnv Unit :=
  { profileNames := ["rds", "local"],
    profiles := fun name =>
      if name == "rds" || name == "local" then some (emptyAdapter, ()) else none }

theorem c8_sync_gates_witness :
    ((compare_profiles twoProfileEnv "rds" "local" ["authors"] "u1" "user_id" "slug").success
        = true)
    ∧ (sync_data twoProfileEnv "rds" "local" ["authors"] "u1" "user_id" "slug" none
          (fun _ r => (r, [DbCall.ins "authors" []])) (fun r => (r, [DbCall.ins "authors" []]))
          true false
        = (compare_profiles twoProfileEnv "rds" "local" ["authors"] "u1" "user_id" "slug", []))
    ∧ (sync_data twoProfileEnv "rds" "local" ["authors"] "u1" "user_id" "slug" none
          (fun _ r => (r, [DbCall.ins "authors" []])) (fun r => (r, [DbCall.ins "authors" []]))
          false false
        = ({ compare_profiles twoProfileEnv "rds" "local" ["authors"] "u1" "user_id" "slug" with
             success := false,
             errors := (compare_profiles twoProfileEnv "rds" "local" ["authors"]
               "u1" "user_id" "slug").errors
               ++ ["Sync requires confirm=True to actually perform changes"] }, [])) :=
  ⟨rfl,
    (c8_sync_gates twoProfileEnv "rds" "local" ["authors"] "u1" "user_id" "slug" none
      (fun _ r => (r, [DbCall.ins "authors" []])) (fun r => (r, [DbCall.ins "authors" []]))
      false).1,
    (c8_sync_gates twoProfileEnv "rds" "local" ["authors"] "u1" "user_id" "slug" none
      (fun _ r => (r, [DbCall.ins "authors" []])) (fun r => (r, [DbCall.ins "authors" []]))
      false).2 rfl⟩

end DbAdapter
